/-
Verification of the IBEF data-acquisition backend core against its
natural-language specification.

The Python sources are shallowly embedded: Python machine floats are
modelled as exact rationals (plus an explicit NaN where NaN propagation
matters), Python `int` as `Int`, Python lists as `List`, raised
exceptions as `Option`/`Except` failures.  `Int.land` (two's-complement
bitwise and, same semantics as Python's `&` on arbitrary integers)
models the `&` operator used by the ring buffer's power-of-two fast
path.
-/
import Mathlib

/-! ### Bitwise groundwork

The ring buffer (`src/core/models/circular_buffer.py`) uses
`x & (capacity - 1)` as a fast modulo when `capacity & (capacity - 1) == 0`.
Python's `&` acts on arbitrary-precision two's-complement integers, which is
exactly `Int.land`.  The lemmas below establish that on power-of-two
capacities the mask path agrees with the `%` path. -/

theorem nat_land_two_pow_sub_one (x k : Nat) : x &&& (2 ^ k - 1) = x % 2 ^ k := by
  apply Nat.eq_of_testBit_eq
  intro i
  simp [Nat.testBit_and, Nat.testBit_two_pow_sub_one, Nat.testBit_mod_two_pow, Bool.and_comm]

theorem nat_ldiff_two_pow_sub_one (k : Nat) :
    ∀ m : Nat, Nat.ldiff (2 ^ k - 1) m = 2 ^ k - 1 - m % 2 ^ k := by
  induction k with
  | zero =>
    intro m
    have h0 : Nat.ldiff 0 m = 0 := by
      apply Nat.eq_of_testBit_eq
      intro i
      simp [Nat.testBit_ldiff]
    simpa using h0
  | succ k ih =>
    intro m
    have hpos : 0 < 2 ^ k := Nat.pos_pow_of_pos k (by omega)
    have hp2 : 2 ^ (k + 1) = 2 * 2 ^ k := by rw [pow_succ]; ring
    obtain ⟨b, q, rfl⟩ : ∃ (b : Bool) (q : Nat), m = Nat.bit b q :=
      ⟨Nat.bodd m, Nat.div2 m, (Nat.bit_decomp m).symm⟩
    have hq : q % 2 ^ k < 2 ^ k := Nat.mod_lt _ hpos
    have hmask : 2 ^ (k + 1) - 1 = Nat.bit true (2 ^ k - 1) := by
      simp only [Nat.bit, Bool.cond_true]
      omega
    have hmod : Nat.bit b q % 2 ^ (k + 1) = 2 * (q % 2 ^ k) + b.toNat := by
      cases b with
      | false =>
        simp only [Nat.bit, Bool.cond_false, Bool.toNat_false, Nat.add_zero, hp2]
        exact Nat.mul_mod_mul_left 2 q (2 ^ k)
      | true =>
        simp only [Nat.bit, Bool.cond_true, Bool.toNat_true, hp2]
        have h1 : 2 * q + 1 = (2 * (q % 2 ^ k) + 1) + (2 * 2 ^ k) * (q / 2 ^ k) := by
          have hd := Nat.div_add_mod q (2 ^ k)
          have hX : (2 * 2 ^ k) * (q / 2 ^ k) = 2 * (2 ^ k * (q / 2 ^ k)) := by ring
          omega
        rw [h1, Nat.add_mul_mod_self_left, Nat.mod_eq_of_lt (by omega)]
    rw [hmask, Nat.ldiff_bit, ih q, hmod]
    cases b <;> simp only [Nat.bit, Bool.and_true, Bool.and_false, Bool.not_true,
      Bool.not_false, Bool.cond_true, Bool.cond_false, Bool.toNat_true, Bool.toNat_false] <;>
      omega

theorem pow_two_of_land_pred : ∀ C : Nat, 1 ≤ C → C &&& (C - 1) = 0 → ∃ k, C = 2 ^ k := by
  intro C
  induction C using Nat.strong_induction_on with
  | _ C ih =>
    intro h1 h2
    rcases Nat.lt_or_ge C 2 with hC | hC
    · exact ⟨0, by omega⟩
    rcases Nat.even_or_odd C with he | ho
    · obtain ⟨D, hDD⟩ := he
      have hD2 : C = 2 * D := by omega
      have hD1 : 1 ≤ D := by omega
      have e2 : C - 1 = Nat.bit true (D - 1) := by
        simp [Nat.bit]
        omega
      have e1 : C = Nat.bit false D := by
        simp [Nat.bit]
        omega
      have hland : C &&& (C - 1) = 2 * (D &&& (D - 1)) := by
        rw [e2, e1, Nat.land_bit]
        simp [Nat.bit]
      have hz : D &&& (D - 1) = 0 := by omega
      obtain ⟨k, hk⟩ := ih D (by omega) hD1 hz
      exact ⟨k + 1, by rw [hD2, hk, pow_succ]; ring⟩
    · obtain ⟨D, hDD⟩ := ho
      have hD1 : 1 ≤ D := by omega
      have e2 : C - 1 = Nat.bit false D := by
        simp [Nat.bit]
        omega
      have e1 : C = Nat.bit true D := by
        simp [Nat.bit]
        omega
      have hland : C &&& (C - 1) = 2 * (D &&& D) := by
        rw [e2, e1, Nat.land_bit]
        simp [Nat.bit]
      rw [Nat.and_self] at hland
      omega

theorem int_land_two_pow_sub_one (x : Int) (k : Nat) :
    Int.land x ((2 : Int) ^ k - 1) = x % (2 : Int) ^ k := by
  have hpos : 0 < 2 ^ k := Nat.pos_pow_of_pos k (by omega)
  have hcast : ((2 : Int) ^ k - 1) = ((2 ^ k - 1 : Nat) : Int) := by
    push_cast [Nat.one_le_two_pow]
    ring
  have hcast2 : ((2 : Int) ^ k) = ((2 ^ k : Nat) : Int) := by push_cast; ring
  cases x with
  | ofNat n =>
    have hland : Int.land (Int.ofNat n) ((2 ^ k - 1 : Nat) : Int) = ((n &&& (2 ^ k - 1) : Nat) : Int) := rfl
    rw [hcast, hland, nat_land_two_pow_sub_one, hcast2]
    have : (Int.ofNat n) = ((n : Nat) : Int) := rfl
    rw [this, ← Int.natCast_mod]
  | negSucc m =>
    have hland : Int.land (Int.negSucc m) ((2 ^ k - 1 : Nat) : Int) = ((Nat.ldiff (2 ^ k - 1) m : Nat) : Int) := rfl
    rw [hcast, hland, nat_ldiff_two_pow_sub_one]
    have hemod : Int.negSucc m % (2 : Int) ^ k = (2 : Int) ^ k - 1 - (m : Int) % (2 : Int) ^ k := by
      apply Int.negSucc_emod
      positivity
    rw [hemod, hcast2]
    have hm : ((m : Int) % ((2 ^ k : Nat) : Int)) = ((m % 2 ^ k : Nat) : Int) := (Int.natCast_mod m (2 ^ k))
    rw [hm]
    have hlt : m % 2 ^ k < 2 ^ k := Nat.mod_lt _ hpos
    omega

/-! ### Python value model

Machine floats are modelled as exact rationals plus an explicit NaN.
All float arithmetic reaching the claims here (decimal literals, offsets,
the ARC formula) is exact in IEEE double up to rounding, which the claims
themselves allow for; NaN propagation is modelled exactly. -/

inductive PyFloat where
  | nan : PyFloat
  | num : ℚ → PyFloat
deriving DecidableEq

def PyFloat.isNan : PyFloat → Bool
  | .nan => true
  | .num _ => false

def PyFloat.add : PyFloat → PyFloat → PyFloat
  | .num a, .num b => .num (a + b)
  | _, _ => .nan

def PyFloat.sub : PyFloat → PyFloat → PyFloat
  | .num a, .num b => .num (a - b)
  | _, _ => .nan

/-- Python float division; division by zero raises `ZeroDivisionError`,
but the embedded code only ever divides by the literal 2, so the zero
case (mapped to NaN here) is never exercised. -/
def PyFloat.div : PyFloat → PyFloat → PyFloat
  | .num a, .num b => if b = 0 then .nan else .num (a / b)
  | _, _ => .nan

instance : Add PyFloat := ⟨PyFloat.add⟩

instance : Sub PyFloat := ⟨PyFloat.sub⟩

instance : Div PyFloat := ⟨PyFloat.div⟩

theorem pyfloat_add_nan (a b : PyFloat) (h : a.isNan ∨ b.isNan) : (a + b).isNan := by
  cases a <;> cases b <;> simp_all [PyFloat.isNan, PyFloat.add, HAdd.hAdd, Add.add]

theorem pyfloat_sub_nan (a b : PyFloat) (h : a.isNan ∨ b.isNan) : (a - b).isNan := by
  cases a <;> cases b <;> simp_all [PyFloat.isNan, PyFloat.sub, HSub.hSub, Sub.sub]

theorem pyfloat_div_nan (a b : PyFloat) (h : a.isNan ∨ b.isNan) : (a / b).isNan := by
  cases a <;> cases b <;> simp_all [PyFloat.isNan, PyFloat.div, HDiv.hDiv, Div.div]

/-- Python `int()` applied to a float value: truncation toward zero. -/
def pyInt (q : ℚ) : Int := if 0 ≤ q then ⌊q⌋ else -⌊-q⌋

/-- Banker's rounding used by Python float formatting (on exactly
representable values). -/
def roundHalfEven (q : ℚ) : Int :=
  let f := ⌊q⌋
  let r := q - f
  if r < 1 / 2 then f
  else if 1 / 2 < r then f + 1
  else if f % 2 = 0 then f else f + 1

def padLeftZeros (s : String) (len : Nat) : String :=
  if len ≤ s.length then s else String.mk (List.replicate (len - s.length) '0') ++ s

/-- Model of the Python format spec `.Df` on a float: NaN renders as
"nan"; finite values are rounded half-to-even at `D` decimals.  (The
sign of negative zero is not modelled.) -/
def pyFormatFixed (d : Nat) : PyFloat → String
  | .nan => "nan"
  | .num q =>
    let scaled : Int := roundHalfEven (q * (10 : ℚ) ^ d)
    let sign := if scaled < 0 then "-" else ""
    let a := scaled.natAbs
    if d = 0 then sign ++ toString a
    else sign ++ toString (a / 10 ^ d) ++ "." ++ padLeftZeros (toString (a % 10 ^ d)) d

def takeDigits : List Char → List Char × List Char
  | [] => ([], [])
  | c :: cs =>
    if '0' ≤ c ∧ c ≤ '9' then
      let p := takeDigits cs
      (c :: p.1, p.2)
    else ([], c :: cs)

def digitsToNat (l : List Char) : Nat := l.foldl (fun acc c => acc * 10 + (c.toNat - 48)) 0

def qpow10 (e : Int) : ℚ := if 0 ≤ e then (10 : ℚ) ^ e.toNat else 1 / (10 : ℚ) ^ (-e).toNat

def parseExpPart (cs : List Char) : Option Int :=
  let p := match cs with
    | '+' :: r => ((1 : Int), r)
    | '-' :: r => ((-1 : Int), r)
    | r => ((1 : Int), r)
  let d := takeDigits p.2
  if d.1 = [] ∨ d.2 ≠ [] then none else some (p.1 * (digitsToNat d.1 : Int))

/-- Model of Python `float(s)` on finite decimal / scientific literals
(the only shapes the wire formats carry); anything else fails with
`ValueError`, modelled as `none`. -/
def parseFloat (s : String) : Option ℚ :=
  let cs := s.toList
  let sp : ℚ × List Char := match cs with
    | '+' :: r => (1, r)
    | '-' :: r => (-1, r)
    | r => (1, r)
  let ip := takeDigits sp.2
  let fp : List Char × List Char := match ip.2 with
    | '.' :: r => takeDigits r
    | r => ([], r)
  if ip.1 = [] ∧ fp.1 = [] then none
  else
    let mant : ℚ := (digitsToNat ip.1 : ℚ) + (digitsToNat fp.1 : ℚ) / (10 : ℚ) ^ fp.1.length
    match fp.2 with
    | [] => some (sp.1 * mant)
    | 'e' :: r => (parseExpPart r).map (fun e => sp.1 * mant * qpow10 e)
    | 'E' :: r => (parseExpPart r).map (fun e => sp.1 * mant * qpow10 e)
    | _ => none

def pySplitAux : List Char → List Char → List String
  | [], acc => if acc = [] then [] else [String.mk acc.reverse]
  | c :: cs, acc =>
    if c.isWhitespace then
      if acc = [] then pySplitAux cs [] else String.mk acc.reverse :: pySplitAux cs []
    else pySplitAux cs (c :: acc)

/-- Python `str.split()` with no argument: split on whitespace runs,
discarding empty pieces. -/
def pySplit (s : String) : List String := pySplitAux s.toList []

def splitOnCharAux (sep : Char) : List Char → List Char → List String
  | [], acc => [String.mk acc.reverse]
  | c :: cs, acc =>
    if c = sep then String.mk acc.reverse :: splitOnCharAux sep cs []
    else splitOnCharAux sep cs (c :: acc)

/-- Python `str.split(sep)` for a one-character separator. -/
def pySplitOn (s : String) (sep : Char) : List String := splitOnCharAux sep s.toList []

/-- Python `str.startswith(prefix)`. -/
def pyStartsWith (s pre : String) : Bool := pre.toList.isPrefixOf s.toList

/-! ### Enumerations (src/core/models/sensor_enum.py, test_state.py)

`SensorId` is embedded exactly as declared in the source: five members.
(The spec, the test suite and several other modules additionally
reference `DISP_4` and `DISP_5`, which are absent from the enum; an
access to `SensorId.DISP_4` raises `AttributeError` at runtime.) -/

inductive SensorId where
  | FORCE
  | DISP_1
  | DISP_2
  | DISP_3
  | ARC
deriving DecidableEq

def SensorId.value : SensorId → Nat
  | .FORCE => 0
  | .DISP_1 => 1
  | .DISP_2 => 2
  | .DISP_3 => 3
  | .ARC => 4

def SensorId.enumName : SensorId → String
  | .FORCE => "FORCE"
  | .DISP_1 => "DISP_1"
  | .DISP_2 => "DISP_2"
  | .DISP_3 => "DISP_3"
  | .ARC => "ARC"

/-- Iteration order of `for s in SensorId`: declaration order. -/
def sensorIdMembers : List SensorId :=
  [.FORCE, .DISP_1, .DISP_2, .DISP_3, .ARC]

inductive TestState where
  | NOTHING
  | PREPARED
  | RUNNING
  | STOPPED
deriving DecidableEq

/-! ### Ring buffer (src/core/models/circular_buffer.py, class CircularBuffer)

The buffer stores `(time, value)` float tuples; times and values are
modelled as exact rationals (the buffer never computes on them). -/

structure CircularBuffer where
  capacity : Nat
  buffer : List (ℚ × ℚ)
  write_index : Nat
  count : Nat
deriving DecidableEq

/-- `self._mask = capacity - 1 if (capacity & (capacity - 1)) == 0 else None`,
with Python integer semantics (for `capacity = 0` the subtraction yields `-1`,
hence `Int`). -/
def maskOf (capacity : Nat) : Option Int :=
  if Int.land (capacity : Int) ((capacity : Int) - 1) = 0 then some ((capacity : Int) - 1)
  else none

def mkCircularBuffer (capacity : Nat) : CircularBuffer :=
  { capacity := capacity
    buffer := List.replicate capacity ((0 : ℚ), (0 : ℚ))
    write_index := 0
    count := 0 }

/-- `append(time, value)`.  The write `self.buffer[self.write_index] = ...`
is modelled by `List.set`; for `capacity ≥ 1` the invariant
`write_index < capacity` keeps it in range (for `capacity = 0` Python
would raise `IndexError` before updating anything). -/
def CircularBuffer.append (cb : CircularBuffer) (time value : ℚ) : CircularBuffer :=
  let buf := cb.buffer.set cb.write_index (time, value)
  let wi : Int :=
    match maskOf cb.capacity with
    | some m => Int.land ((cb.write_index : Int) + 1) m
    | none => ((cb.write_index : Int) + 1) % (cb.capacity : Int)
  { cb with
    buffer := buf
    write_index := wi.toNat
    count := if cb.count < cb.capacity then cb.count + 1 else cb.count }

/-- The physical index `(write_index - count + logical) & mask` resp.
`(write_index - count + logical) % capacity`, shared by `get` and
`get_range`. -/
def CircularBuffer.physIdx (cb : CircularBuffer) (logical : Int) : Int :=
  match maskOf cb.capacity with
  | some m => Int.land ((cb.write_index : Int) - (cb.count : Int) + logical) m
  | none => ((cb.write_index : Int) - (cb.count : Int) + logical) % (cb.capacity : Int)

/-- `get(index)`: raises `IndexError` (modelled `none`) exactly when the
explicit bounds check `index < 0 or index >= self.count` fires; otherwise
reads the physical slot. -/
def CircularBuffer.get (cb : CircularBuffer) (index : Int) : Option (ℚ × ℚ) :=
  if index < 0 ∨ (cb.count : Int) ≤ index then none
  else cb.buffer.get? (cb.physIdx index).toNat

def CircularBuffer.size (cb : CircularBuffer) : Nat := cb.count

def CircularBuffer.clear (cb : CircularBuffer) : CircularBuffer :=
  { cb with write_index := 0, count := 0 }

/-- `get_range(start_index, end_index)` exactly as in the source: the
bounds check, the empty fast path, then either the contiguous copy
(`phys_start < phys_end`; the source's wrap test
`ps <= pe or (ps > pe and pe <= ps)` is always true, so its else-branch
is dead) or the two-segment copy into a list preallocated with
`range_size` placeholder `(0.0, 0.0)` entries; writing past the
preallocated length raises `IndexError` (modelled `none`). -/
def CircularBuffer.get_range (cb : CircularBuffer) (start_index end_index : Int) :
    Option (List (ℚ × ℚ)) :=
  if start_index < 0 ∨ (cb.count : Int) < end_index ∨ end_index < start_index then none
  else
    let range_size := (end_index - start_index).toNat
    if range_size = 0 then some []
    else
      let phys_start := cb.physIdx start_index
      let phys_end := cb.physIdx end_index
      if phys_start < phys_end then
        (List.range range_size).mapM (fun i => cb.buffer.get? (phys_start.toNat + i))
      else
        let first_part := cb.capacity - phys_start.toNat
        match (List.range first_part).mapM (fun i => cb.buffer.get? (phys_start.toNat + i)),
              (List.range phys_end.toNat).mapM (fun i => cb.buffer.get? i) with
        | some a, some b =>
          if first_part + phys_end.toNat ≤ range_size then
            some (a ++ b ++ List.replicate (range_size - (first_part + phys_end.toNat)) (0, 0))
          else none
        | _, _ => none

def CircularBuffer.appendAll (cb : CircularBuffer) (xs : List (ℚ × ℚ)) : CircularBuffer :=
  xs.foldl (fun b tv => b.append tv.1 tv.2) cb

/-! ### Sensor data storage (same file, class SensorDataStorage) -/

/-- The values of the `DisplayDuration` enum, in declaration order. -/
def DisplayDuration_values : List Int := [30, 60, 120, 300, 600]

structure SensorDataStorage where
  sensor_count : Nat
  sampling_frequency : ℚ
  total_capacity : Int
  buffers : List CircularBuffer
  reference_points_count : Int

/-- `SensorDataStorage.__init__`: `points_per_30s = int(f * 30)`,
`total_capacity = points_per_30s * 20`, one `CircularBuffer` per sensor.
(Python `[x] * n` with negative `n` yields `[]`, matching `Int.toNat`.) -/
def mkSensorDataStorage (sensor_count : Nat) (sampling_frequency : ℚ) : SensorDataStorage :=
  let points_per_30s : Int := pyInt (sampling_frequency * 30)
  let total_capacity : Int := points_per_30s * 20
  { sensor_count := sensor_count
    sampling_frequency := sampling_frequency
    total_capacity := total_capacity
    buffers := (List.range sensor_count).map (fun _ => mkCircularBuffer total_capacity.toNat)
    reference_points_count := points_per_30s }

/-- The offsets precomputed per duration in `__init__`: `int(i * step)`
with `step = max_points_in_window / target_points` (true division), the
final offset pinned to `max_points_in_window - 1`. -/
def windowOffsets (max_points target : Int) : List Int :=
  (List.range target.toNat).map (fun (i : Nat) =>
    if (i : Int) = target - 1 then max_points - 1
    else pyInt ((i : ℚ) * ((max_points : ℚ) / (target : ℚ))))

/-- `self._precomputed_windows.get(window_seconds)`: populated only for
the five `DisplayDuration` values, and explicitly `None` when
`target_points <= 0 or max_points_in_window <= 0`. -/
def SensorDataStorage.precomputedWindow (s : SensorDataStorage) (window_seconds : Int) :
    Option (Int × List Int) :=
  if window_seconds ∈ DisplayDuration_values then
    let max_points_in_window : Int := pyInt (s.sampling_frequency * (window_seconds : ℚ))
    if s.reference_points_count ≤ 0 ∨ max_points_in_window ≤ 0 then none
    else some (max_points_in_window, windowOffsets max_points_in_window s.reference_points_count)
  else none

/-- `append(sensor_idx, time, value)`: `ValueError` on a bad index, else
O(1) append into that sensor's buffer. -/
def SensorDataStorage.append (s : SensorDataStorage) (sensor_idx : Int) (time value : ℚ) :
    Except String SensorDataStorage :=
  if sensor_idx < 0 ∨ (s.sensor_count : Int) ≤ sensor_idx then
    .error ("Invalid sensor index " ++ toString sensor_idx)
  else
    match s.buffers.get? sensor_idx.toNat with
    | some b => .ok { s with buffers := s.buffers.set sensor_idx.toNat (b.append time value) }
    | none => .error "IndexError"

def SensorDataStorage.appendMany (s : SensorDataStorage) (sensor_idx : Int)
    (xs : List (ℚ × ℚ)) : Except String SensorDataStorage :=
  xs.foldlM (fun st tv => st.append sensor_idx tv.1 tv.2) s

/-- `get_data_for_window_seconds(sensor_idx, window_seconds)`, following
the source case by case: index check, precomputed-window lookup
(`ValueError` if absent), empty-buffer fast path, then
case 1 (`available <= target`: trailing `get_range`),
case 2 (`available >= max_points`: precomputed offsets over the last
`max_points` samples), case 3 (uniform subsample of the available
points, last pinned to the newest). -/
def SensorDataStorage.get_data_for_window_seconds (s : SensorDataStorage)
    (sensor_idx window_seconds : Int) : Except String (List (ℚ × ℚ)) :=
  if sensor_idx < 0 ∨ (s.sensor_count : Int) ≤ sensor_idx then
    .error ("Invalid sensor index " ++ toString sensor_idx)
  else
    match s.precomputedWindow window_seconds with
    | none => .error ("Unsupported window_seconds: " ++ toString window_seconds)
    | some wi =>
      match s.buffers.get? sensor_idx.toNat with
      | none => .error "IndexError"
      | some buffer =>
        if buffer.size = 0 then .ok []
        else
          let max_points_in_window := wi.1
          let offsets := wi.2
          let available_points : Int := min (buffer.size : Int) max_points_in_window
          let target_points := s.reference_points_count
          if available_points ≤ target_points then
            match buffer.get_range ((buffer.size : Int) - available_points) (buffer.size : Int) with
            | some l => .ok l
            | none => .error "IndexError"
          else if max_points_in_window ≤ available_points then
            let window_start_idx : Int := (buffer.size : Int) - max_points_in_window
            match offsets.mapM (fun off => buffer.get (window_start_idx + off)) with
            | some l => .ok l
            | none => .error "IndexError"
          else
            let step : ℚ := (available_points : ℚ) / (target_points : ℚ)
            let start_idx : Int := (buffer.size : Int) - available_points
            match (List.range target_points.toNat).mapM (fun (i : Nat) =>
                buffer.get (if (i : Int) = target_points - 1
                  then start_idx + available_points - 1
                  else pyInt ((start_idx : ℚ) + (i : ℚ) * step))) with
            | some l => .ok l
            | none => .error "IndexError"

/-! ### Ring buffer model: the last `min (n, C)` appended entries sit at
their physical slots -/

theorem maskOf_pow_two {C : Nat} {m : Int} (h1 : 1 ≤ C) (h : maskOf C = some m) :
    m = (C : Int) - 1 ∧ ∃ k, C = 2 ^ k := by
  unfold maskOf at h
  by_cases hc : Int.land (C : Int) ((C : Int) - 1) = 0
  · simp only [hc, if_pos, if_true] at h
    refine ⟨(Option.some.injEq _ _ ▸ h).symm, ?_⟩
    apply pow_two_of_land_pred C h1
    have e1 : ((C : Int) - 1) = ((C - 1 : Nat) : Int) := by omega
    rw [e1] at hc
    have e2 : Int.land (C : Int) ((C - 1 : Nat) : Int) = ((C &&& (C - 1) : Nat) : Int) := rfl
    rw [e2] at hc
    exact_mod_cast hc
  · simp [hc] at h

theorem land_mask_emod {C : Nat} {m : Int} (h1 : 1 ≤ C) (hm : maskOf C = some m) (x : Int) :
    Int.land x m = x % (C : Int) := by
  obtain ⟨he, k, hk⟩ := maskOf_pow_two h1 hm
  have hC : (C : Int) = (2 : Int) ^ k := by exact_mod_cast congrArg (Nat.cast (R := Int)) hk
  rw [he, hC, int_land_two_pow_sub_one]

theorem physIdx_eq (cb : CircularBuffer) (x : Int) (h1 : 1 ≤ cb.capacity) :
    cb.physIdx x = ((cb.write_index : Int) - (cb.count : Int) + x) % (cb.capacity : Int) := by
  unfold CircularBuffer.physIdx
  cases hm : maskOf cb.capacity with
  | none => rfl
  | some m => exact land_mask_emod h1 hm _

theorem append_write_index (cb : CircularBuffer) (t v : ℚ) (h1 : 1 ≤ cb.capacity) :
    (cb.append t v).write_index = (cb.write_index + 1) % cb.capacity := by
  unfold CircularBuffer.append
  cases hm : maskOf cb.capacity with
  | none =>
    simp only [hm]
    have : ((cb.write_index : Int) + 1) % (cb.capacity : Int) = (((cb.write_index + 1) % cb.capacity : Nat) : Int) := by
      rw [Int.natCast_mod]
      push_cast
      ring_nf
    rw [this, Int.toNat_natCast]
  | some m =>
    simp only [hm]
    rw [land_mask_emod h1 hm]
    have : ((cb.write_index : Int) + 1) % (cb.capacity : Int) = (((cb.write_index + 1) % cb.capacity : Nat) : Int) := by
      rw [Int.natCast_mod]
      push_cast
      ring_nf
    rw [this, Int.toNat_natCast]

/-- Abstraction relation: `cb` is what a fresh capacity-`C` buffer
(`C ≥ 1`) becomes after appending the history `xs` in order. -/
def BufModels (cb : CircularBuffer) (C : Nat) (xs : List (ℚ × ℚ)) : Prop :=
  cb.capacity = C ∧ cb.buffer.length = C ∧ cb.count = min xs.length C ∧
  cb.write_index = xs.length % C ∧
  ∀ j, j < cb.count → cb.buffer.get? ((xs.length - 1 - j) % C) = xs.get? (xs.length - 1 - j)

theorem bufModels_mk (C : Nat) : BufModels (mkCircularBuffer C) C [] := by
  refine ⟨rfl, by simp [mkCircularBuffer], by simp [mkCircularBuffer], by simp [mkCircularBuffer], ?_⟩
  intro j hj
  simp [mkCircularBuffer] at hj

theorem bufModels_append {cb : CircularBuffer} {C : Nat} {xs : List (ℚ × ℚ)}
    (h1 : 1 ≤ C) (h : BufModels cb C xs) (t v : ℚ) :
    BufModels (cb.append t v) C (xs ++ [(t, v)]) := by
  obtain ⟨hcap, hlen, hcount, hwrite, hslots⟩ := h
  have hwlt : cb.write_index < C := by
    rw [hwrite]; exact Nat.mod_lt _ (by omega)
  have hbuf : (cb.append t v).buffer = cb.buffer.set cb.write_index (t, v) := rfl
  have hcnt : (cb.append t v).count = if cb.count < cb.capacity then cb.count + 1 else cb.count := rfl
  have hcap2 : (cb.append t v).capacity = cb.capacity := rfl
  have hcount2 : (cb.append t v).count = min (xs.length + 1) C := by
    rw [hcnt, hcap, hcount]; split <;> omega
  refine ⟨by rw [hcap2, hcap], ?_, ?_, ?_, ?_⟩
  · rw [hbuf, List.length_set, hlen]
  · rw [hcount2]; simp
  · rw [append_write_index cb t v (by omega), hwrite, hcap]
    simp only [List.length_append, List.length_singleton]
    exact (Nat.mod_modEq xs.length C).add_right 1
  · intro j hj
    rw [hcount2] at hj
    rw [hbuf]
    simp only [List.length_append, List.length_singleton]
    rcases Nat.eq_zero_or_pos j with hj0 | hjpos
    · subst hj0
      have hidx : xs.length + 1 - 1 - 0 = xs.length := by omega
      rw [hidx]
      have hwx : xs.length % C = cb.write_index := hwrite.symm
      have hlt : cb.write_index < cb.buffer.length := by omega
      rw [hwx, List.get?_set_eq_of_lt _ hlt, List.get?_concat_length]
    · have hjn : j ≤ xs.length := by omega
      have hidx : xs.length + 1 - 1 - j = xs.length - j := by omega
      rw [hidx]
      have hne : cb.write_index ≠ (xs.length - j) % C := by
        rw [hwrite]
        intro heq
        have hmeq : Nat.ModEq C (xs.length - j) xs.length := heq.symm
        have hdvd := (Nat.modEq_iff_dvd).mp hmeq
        have hj2 : ((xs.length : Int) - ((xs.length - j : Nat) : Int)) = (j : Int) := by omega
        rw [hj2] at hdvd
        have hle := Int.le_of_dvd (by exact_mod_cast hjpos) hdvd
        have hjC : j < C := by omega
        omega
      rw [List.get?_set_ne _ _ hne]
      have hmodel := hslots (j - 1) (by omega)
      have hidx2 : xs.length - 1 - (j - 1) = xs.length - j := by omega
      rw [hidx2] at hmodel
      rw [hmodel]
      have hlt2 : xs.length - j < xs.length := by omega
      rw [List.get?_append hlt2]

theorem bufModels_appendAll {C : Nat} (h1 : 1 ≤ C) :
    ∀ (ys : List (ℚ × ℚ)) (cb : CircularBuffer) (xs : List (ℚ × ℚ)),
      BufModels cb C xs → BufModels (cb.appendAll ys) C (xs ++ ys) := by
  intro ys
  induction ys with
  | nil => intro cb xs h; simpa [CircularBuffer.appendAll] using h
  | cons y ys ih =>
    intro cb xs h
    have h1step := bufModels_append h1 h y.1 y.2
    have := ih (cb.append y.1 y.2) (xs ++ [(y.1, y.2)]) h1step
    simpa [CircularBuffer.appendAll, List.append_assoc] using this

theorem bufModels_of_appendAll_mk {C : Nat} (h1 : 1 ≤ C) (xs : List (ℚ × ℚ)) :
    BufModels ((mkCircularBuffer C).appendAll xs) C xs := by
  simpa using bufModels_appendAll h1 xs (mkCircularBuffer C) [] (bufModels_mk C)

theorem bufModels_count {cb : CircularBuffer} {C : Nat} {xs : List (ℚ × ℚ)}
    (h : BufModels cb C xs) : cb.count = min xs.length C := h.2.2.1

theorem bufModels_phys_get {cb : CircularBuffer} {C : Nat} {xs : List (ℚ × ℚ)}
    (h1 : 1 ≤ C) (h : BufModels cb C xs) (i : Nat) (hi : i < cb.count) :
    cb.buffer.get? ((xs.length - cb.count + i) % C) = xs.get? (xs.length - cb.count + i) := by
  obtain ⟨hcap, hlen, hcount, hwrite, hslots⟩ := h
  have hcn : cb.count ≤ xs.length := by omega
  have hidx : xs.length - cb.count + i = xs.length - 1 - (cb.count - 1 - i) := by omega
  rw [hidx]
  exact hslots (cb.count - 1 - i) (by omega)

theorem bufModels_get {cb : CircularBuffer} {C : Nat} {xs : List (ℚ × ℚ)}
    (h1 : 1 ≤ C) (h : BufModels cb C xs) (i : Nat) (hi : i < cb.count) :
    cb.get (i : Int) = xs.get? (xs.length - cb.count + i) := by
  have hcap := h.1
  have hcn : cb.count ≤ xs.length := by
    have := bufModels_count h
    omega
  unfold CircularBuffer.get
  have hcond : ¬((i : Int) < 0 ∨ (cb.count : Int) ≤ (i : Int)) := by
    push_neg
    constructor
    · positivity
    · exact_mod_cast hi
  rw [if_neg hcond]
  rw [physIdx_eq cb (i : Int) (by omega)]
  have hwrite := h.2.2.2.1
  have hmod : ((cb.write_index : Int) - (cb.count : Int) + (i : Int)) % (cb.capacity : Int)
      = (((xs.length - cb.count + i) % C : Nat) : Int) := by
    rw [hwrite, hcap]
    have h2 : ((xs.length % C : Nat) : Int) - (cb.count : Int) + (i : Int)
        = ((xs.length : Int) % (C : Int)) + ((i : Int) - (cb.count : Int)) := by
      rw [Int.natCast_mod]; ring
    rw [h2, Int.emod_add_emod]
    have h3 : (xs.length : Int) + ((i : Int) - (cb.count : Int))
        = ((xs.length - cb.count + i : Nat) : Int) := by omega
    rw [h3, ← Int.natCast_mod]
  rw [hmod, Int.toNat_natCast]
  exact bufModels_phys_get h1 h i hi

theorem bufModels_get_in_range {cb : CircularBuffer} {C : Nat} {xs : List (ℚ × ℚ)}
    (h1 : 1 ≤ C) (h : BufModels cb C xs) (i : Nat) (hi : i < cb.count) :
    ∃ p, cb.get (i : Int) = some p ∧ xs.get? (xs.length - cb.count + i) = some p := by
  have hg := bufModels_get h1 h i hi
  have hcn : cb.count ≤ xs.length := by
    have := bufModels_count h
    omega
  have hlt : xs.length - cb.count + i < xs.length := by omega
  refine ⟨xs.get ⟨xs.length - cb.count + i, hlt⟩, ?_, List.get?_eq_get hlt⟩
  rw [hg]
  exact List.get?_eq_get hlt

theorem bufModels_get_none {cb : CircularBuffer} {C : Nat} {xs : List (ℚ × ℚ)}
    (h1 : 1 ≤ C) (h : BufModels cb C xs) (i : Int) :
    (cb.get i = none ↔ (i < 0 ∨ (cb.count : Int) ≤ i)) := by
  constructor
  · intro hnone
    by_contra hc
    push_neg at hc
    obtain ⟨hge, hlt⟩ := hc
    have hi : i = ((i.toNat : Nat) : Int) := by omega
    have hlt2 : i.toNat < cb.count := by omega
    obtain ⟨p, hp, _⟩ := bufModels_get_in_range h1 h i.toNat hlt2
    rw [hi, hp] at hnone
    exact Option.noConfusion hnone
  · intro hc
    unfold CircularBuffer.get
    rw [if_pos hc]

theorem chain_consec {α : Type} {R : α → α → Prop} :
    ∀ {xs : List α}, List.Chain' R xs →
      ∀ i a b, xs.get? i = some a → xs.get? (i + 1) = some b → R a b := by
  intro xs
  induction xs with
  | nil => intro _ i a b h1 _; simp [List.get?] at h1
  | cons x l ih =>
    intro hch i a b h1 h2
    rw [List.chain'_cons'] at hch
    obtain ⟨hhd, htl⟩ := hch
    cases i with
    | zero =>
      have hax : x = a := by
        have : (x :: l).get? 0 = some x := rfl
        rw [this] at h1
        exact (Option.some.injEq _ _).mp h1
      subst hax
      have h2' : l.get? 0 = some b := h2
      apply hhd
      rw [Option.mem_def, ← List.get?_zero]
      exact h2'
    | succ n => exact ih htl n a b h1 h2

theorem chain_le_get_add {xs : List (ℚ × ℚ)}
    (h : List.Chain' (fun a b : ℚ × ℚ => a.1 ≤ b.1) xs) :
    ∀ d i a b, xs.get? i = some a → xs.get? (i + d) = some b → a.1 ≤ b.1 := by
  intro d
  induction d with
  | zero =>
    intro i a b h1 h2
    rw [Nat.add_zero, h1] at h2
    cases h2
    exact le_refl _
  | succ n ih =>
    intro i a b h1 h2
    obtain ⟨hlen, _⟩ := List.get?_eq_some.mp h2
    have hmid : i + n < xs.length := by omega
    have hc := List.get?_eq_get hmid
    have hac := ih i a _ h1 hc
    have hcb := chain_consec h (i + n) _ b hc (by
      have : i + n + 1 = i + (n + 1) := by omega
      rw [this]
      exact h2)
    exact le_trans hac hcb

theorem chain_le_get_le {xs : List (ℚ × ℚ)}
    (h : List.Chain' (fun a b : ℚ × ℚ => a.1 ≤ b.1) xs) (i j : Nat) (hij : i ≤ j)
    (a b : ℚ × ℚ) (h1 : xs.get? i = some a) (h2 : xs.get? j = some b) : a.1 ≤ b.1 := by
  have he : i + (j - i) = j := by omega
  exact chain_le_get_add h (j - i) i a b h1 (by rw [he]; exact h2)

/-- C2: for every ring buffer of capacity `C ≥ 1`, after any sequence of
`n` appends: `count = min n C`; `get (count - 1)` returns the most
recently appended pair; under non-decreasing appended times the times of
`get i` are non-decreasing in `i`; and `get i` fails (raises, modelled
`none`) exactly when `i < 0` or `i ≥ count`. -/
theorem C2_ring_buffer_invariants (C : Nat) (hC : 1 ≤ C) (xs : List (ℚ × ℚ)) :
    ((mkCircularBuffer C).appendAll xs).count = min xs.length C ∧
    (∀ last, xs.getLast? = some last →
      ((mkCircularBuffer C).appendAll xs).get
        ((((mkCircularBuffer C).appendAll xs).count : Int) - 1) = some last) ∧
    (List.Chain' (fun a b : ℚ × ℚ => a.1 ≤ b.1) xs →
      ∀ i : Nat, i + 1 < ((mkCircularBuffer C).appendAll xs).count →
        ∃ p q, ((mkCircularBuffer C).appendAll xs).get (i : Int) = some p ∧
          ((mkCircularBuffer C).appendAll xs).get ((i : Int) + 1) = some q ∧ p.1 ≤ q.1) ∧
    (∀ i : Int, ((mkCircularBuffer C).appendAll xs).get i = none ↔
      (i < 0 ∨ (((mkCircularBuffer C).appendAll xs).count : Int) ≤ i)) := by
  have hM := bufModels_of_appendAll_mk hC xs
  have hcount := bufModels_count hM
  refine ⟨hcount, ?_, ?_, ?_⟩
  · intro last hlast
    rw [List.getLast?_eq_get?] at hlast
    have hn : 1 ≤ xs.length := by
      by_contra hn
      have hxs : xs = [] := by
        cases xs with
        | nil => rfl
        | cons a l => simp at hn
      subst hxs
      simp [List.get?] at hlast
    have hcnt1 : 1 ≤ ((mkCircularBuffer C).appendAll xs).count := by omega
    have hcast : ((((mkCircularBuffer C).appendAll xs).count : Int) - 1)
        = (((((mkCircularBuffer C).appendAll xs).count - 1 : Nat)) : Int) := by omega
    rw [hcast, bufModels_get hC hM _ (by omega)]
    have hidx : xs.length - ((mkCircularBuffer C).appendAll xs).count
        + (((mkCircularBuffer C).appendAll xs).count - 1) = xs.length - 1 := by omega
    rw [hidx]
    exact hlast
  · intro hch i hi
    obtain ⟨p, hp, hxp⟩ := bufModels_get_in_range hC hM i (by omega)
    obtain ⟨q, hq, hxq⟩ := bufModels_get_in_range hC hM (i + 1) hi
    refine ⟨p, q, hp, ?_, ?_⟩
    · have hcast : ((i : Int) + 1) = (((i + 1 : Nat)) : Int) := by omega
      rw [hcast]
      exact hq
    · exact chain_le_get_le hch _ _ (by omega) p q hxp hxq
  · exact bufModels_get_none hC hM

/-- Witness for C2 at `C = 3` with four appends. -/
theorem C2_ring_buffer_invariants_witness :
    ((mkCircularBuffer 3).appendAll [((0 : ℚ), (10 : ℚ)), (1, 11), (2, 12), (3, 13)]).count
      = min 4 3 ∧
    (∀ last, [((0 : ℚ), (10 : ℚ)), (1, 11), (2, 12), (3, 13)].getLast? = some last →
      ((mkCircularBuffer 3).appendAll [((0 : ℚ), (10 : ℚ)), (1, 11), (2, 12), (3, 13)]).get
        ((((mkCircularBuffer 3).appendAll [((0 : ℚ), (10 : ℚ)), (1, 11), (2, 12), (3, 13)]).count : Int) - 1)
        = some last) ∧
    (List.Chain' (fun a b : ℚ × ℚ => a.1 ≤ b.1) [((0 : ℚ), (10 : ℚ)), (1, 11), (2, 12), (3, 13)] →
      ∀ i : Nat,
        i + 1 < ((mkCircularBuffer 3).appendAll [((0 : ℚ), (10 : ℚ)), (1, 11), (2, 12), (3, 13)]).count →
        ∃ p q,
          ((mkCircularBuffer 3).appendAll [((0 : ℚ), (10 : ℚ)), (1, 11), (2, 12), (3, 13)]).get (i : Int)
            = some p ∧
          ((mkCircularBuffer 3).appendAll [((0 : ℚ), (10 : ℚ)), (1, 11), (2, 12), (3, 13)]).get ((i : Int) + 1)
            = some q ∧ p.1 ≤ q.1) ∧
    (∀ i : Int,
      ((mkCircularBuffer 3).appendAll [((0 : ℚ), (10 : ℚ)), (1, 11), (2, 12), (3, 13)]).get i = none ↔
        (i < 0 ∨
          (((mkCircularBuffer 3).appendAll [((0 : ℚ), (10 : ℚ)), (1, 11), (2, 12), (3, 13)]).count : Int) ≤ i)) :=
  C2_ring_buffer_invariants 3 (by decide) [((0 : ℚ), (10 : ℚ)), (1, 11), (2, 12), (3, 13)]

theorem mapM_option_some {β γ : Type} :
    ∀ (l : List β) (F : β → Option γ) (g : β → γ),
      (∀ x ∈ l, F x = some (g x)) → l.mapM F = some (l.map g) := by
  intro l F g
  induction l with
  | nil => intro _; rfl
  | cons x l ih =>
    intro hall
    rw [List.mapM_cons, hall x (by simp), ih (fun y hy => hall y (by simp [hy]))]
    rfl

theorem mapM_range_some {γ : Type} (k : Nat) (F : Nat → Option γ) (g : Nat → γ)
    (hF : ∀ i, i < k → F i = some (g i)) :
    (List.range k).mapM F = some ((List.range k).map g) :=
  mapM_option_some (List.range k) F g (fun x hx => hF x (List.mem_range.mp hx))

theorem get_range_map_length {γ : Type} (k : Nat) (g : Nat → γ) (i : Nat) (hi : i < k) :
    ((List.range k).map g).get? i = some (g i) := by
  rw [List.get?_map, List.get?_range hi]
  rfl

theorem bufModels_physIdx {cb : CircularBuffer} {C : Nat} {xs : List (ℚ × ℚ)}
    (h1 : 1 ≤ C) (h : BufModels cb C xs) (s : Nat) :
    cb.physIdx (s : Int) = (((xs.length - cb.count + s) % C : Nat) : Int) := by
  have hcap := h.1
  have hwrite := h.2.2.2.1
  have hcn : cb.count ≤ xs.length := by
    have := bufModels_count h
    omega
  rw [physIdx_eq cb (s : Int) (by omega), hwrite, hcap]
  have h2 : ((xs.length % C : Nat) : Int) - (cb.count : Int) + (s : Int)
      = ((xs.length : Int) % (C : Int)) + ((s : Int) - (cb.count : Int)) := by
    rw [Int.natCast_mod]; ring
  rw [h2, Int.emod_add_emod]
  have h3 : (xs.length : Int) + ((s : Int) - (cb.count : Int))
      = ((xs.length - cb.count + s : Nat) : Int) := by omega
  rw [h3, ← Int.natCast_mod]

theorem bufModels_get_range {cb : CircularBuffer} {C : Nat} {xs : List (ℚ × ℚ)}
    (h1 : 1 ≤ C) (h : BufModels cb C xs) (s e : Nat) (hse : s ≤ e) (hec : e ≤ cb.count) :
    ∃ l, cb.get_range (s : Int) (e : Int) = some l ∧ l.length = e - s ∧
      ∀ i, i < e - s → l.get? i = xs.get? (xs.length - cb.count + s + i) := by
  have hcap := h.1
  have hlen := h.2.1
  have hcnt := bufModels_count h
  have hcn : cb.count ≤ xs.length := by omega
  have hcC : cb.count ≤ C := by omega
  unfold CircularBuffer.get_range
  have hcond : ¬((s : Int) < 0 ∨ (cb.count : Int) < (e : Int) ∨ (e : Int) < (s : Int)) := by
    push_neg
    refine ⟨by positivity, by exact_mod_cast hec, by exact_mod_cast hse⟩
  rw [if_neg hcond]
  have hsize : ((e : Int) - (s : Int)).toNat = e - s := by omega
  rw [hsize]
  by_cases h0 : e - s = 0
  · rw [h0]
    exact ⟨[], by rw [if_pos rfl], by simp, by intro i hi; omega⟩
  · rw [if_neg h0]
    have hps := bufModels_physIdx h1 h s
    have hpe := bufModels_physIdx h1 h e
    rw [hps, hpe]
    set A := xs.length - cb.count + s with hA
    set B := xs.length - cb.count + e with hB
    have hBA : B = A + (e - s) := by omega
    have haC : A % C < C := Nat.mod_lt _ (by omega)
    have hbC : B % C < C := Nat.mod_lt _ (by omega)
    have hcong : (A % C + (e - s)) % C = B % C := by
      rw [Nat.mod_add_mod, ← hBA]
    have hBn : B ≤ xs.length := by omega
    have hread : ∀ j, j < e - s → cb.buffer.get? ((A + j) % C) = xs.get? (A + j) := by
      intro j hj
      have hAj : A + j = xs.length - cb.count + (s + j) := by omega
      rw [hAj]
      exact bufModels_phys_get h1 h (s + j) (by omega)
    by_cases hwrap : ((A % C : Nat) : Int) < ((B % C : Nat) : Int)
    · rw [if_pos hwrap]
      have hab : A % C < B % C := by exact_mod_cast hwrap
      have hlt : e - s < C := by
        by_contra hge
        have hes : e - s = C := by omega
        rw [hes, Nat.add_mod_right, Nat.mod_mod_of_dvd A (dvd_refl C)] at hcong
        omega
      have hseg : B % C = A % C + (e - s) := by
        rcases Nat.lt_or_ge (A % C + (e - s)) C with hcase | hcase
        · rw [Nat.mod_eq_of_lt hcase] at hcong
          omega
        · rw [Nat.mod_eq_sub_mod hcase, Nat.mod_eq_of_lt (by omega)] at hcong
          omega
      have hidx : ∀ i, i < e - s → ((((A % C : Nat) : Int)).toNat + i) = (A + i) % C := by
        intro i hi
        have h4 : A % C + i < C := by omega
        have he4 : (A + i) % C = A % C + i := by
          rw [← Nat.mod_add_mod, Nat.mod_eq_of_lt h4]
        rw [he4, Int.toNat_natCast]
      have hm1 := mapM_range_some (e - s)
        (fun i => cb.buffer.get? ((((A % C : Nat) : Int)).toNat + i))
        (fun i => (xs.get? (A + i)).getD (0, 0)) (by
          intro i hi
          have hlt2 : A + i < xs.length := by omega
          simp only
          rw [hidx i hi, hread i hi, List.get?_eq_get hlt2]
          rfl)
      rw [hm1]
      refine ⟨_, rfl, by simp, ?_⟩
      intro i hi
      rw [get_range_map_length _ _ i hi]
      have hlt2 : A + i < xs.length := by omega
      rw [List.get?_eq_get hlt2]
      rfl
    · rw [if_neg hwrap]
      have hab : B % C ≤ A % C := by
        by_contra hc
        push_neg at hc
        exact hwrap (by exact_mod_cast hc)
      have hfp : cb.capacity - (((A % C : Nat) : Int)).toNat = C - A % C := by
        rw [hcap, Int.toNat_natCast]
      rw [hfp]
      have hlow : C ≤ A % C + (e - s) := by
        by_contra hge
        push_neg at hge
        rw [Nat.mod_eq_of_lt hge] at hcong
        omega
      have hsz : e - s ≤ C := by omega
      have hseg : B % C = A % C + (e - s) - C := by
        rw [Nat.mod_eq_sub_mod (by omega), Nat.mod_eq_of_lt (by omega)] at hcong
        omega
      have hfirst : ∀ i, i < C - A % C → ((((A % C : Nat) : Int)).toNat + i) = (A + i) % C := by
        intro i hi
        have h4 : A % C + i < C := by omega
        have he4 : (A + i) % C = A % C + i := by
          rw [← Nat.mod_add_mod, Nat.mod_eq_of_lt h4]
        rw [he4, Int.toNat_natCast]
      have hsecond : ∀ j, j < B % C → (A + (C - A % C + j)) % C = j := by
        intro j hj
        have hAq : A % C + C * (A / C) = A := by
          have := Nat.div_add_mod A C
          omega
        have hmul : C * (A / C + 1) = C * (A / C) + C := by ring
        have he2 : A + (C - A % C + j) = C * (A / C + 1) + j := by omega
        rw [he2, Nat.mul_add_mod, Nat.mod_eq_of_lt (by omega)]
      have hm1 := mapM_range_some (C - A % C)
        (fun i => cb.buffer.get? ((((A % C : Nat) : Int)).toNat + i))
        (fun i => (xs.get? (A + i)).getD (0, 0)) (by
          intro i hi
          have hilt : i < e - s := by omega
          have hlt2 : A + i < xs.length := by omega
          simp only
          rw [hfirst i hi, hread i hilt, List.get?_eq_get hlt2]
          rfl)
      have htn : (((B % C : Nat) : Int)).toNat = B % C := Int.toNat_natCast _
      rw [htn]
      have hm2 := mapM_range_some (B % C)
        (fun j => cb.buffer.get? j)
        (fun j => (xs.get? (A + (C - A % C + j))).getD (0, 0)) (by
          intro j hj
          have hjlt : C - A % C + j < e - s := by omega
          have hlt2 : A + (C - A % C + j) < xs.length := by omega
          have hr := hread (C - A % C + j) hjlt
          rw [hsecond j hj] at hr
          simp only
          rw [hr, List.get?_eq_get hlt2]
          rfl)
      have hfill : C - A % C + B % C = e - s := by omega
      simp only [hm1, hm2, hfill, le_refl, if_true, if_pos, Nat.sub_self, List.replicate_zero,
        List.append_nil]
      refine ⟨_, rfl, ?_, ?_⟩
      · simp
        omega
      · intro i hi
        by_cases hcase : i < C - A % C
        · rw [List.get?_append (by simp [hcase]), get_range_map_length _ _ i hcase]
          have hlt2 : A + i < xs.length := by omega
          rw [List.get?_eq_get hlt2]
          rfl
        · push_neg at hcase
          rw [List.get?_append_right (by simp [hcase])]
          have hlen1 : ((List.range (C - A % C)).map
              (fun i => (xs.get? (A + i)).getD (0, 0))).length = C - A % C := by simp
          rw [hlen1, get_range_map_length _ _ (i - (C - A % C)) (by omega)]
          have harg : A + (C - A % C + (i - (C - A % C))) = A + i := by omega
          rw [harg]
          have hlt2 : A + i < xs.length := by omega
          rw [List.get?_eq_get hlt2]
          rfl

theorem list_set_get_self {α : Type} (l : List α) (n : Nat) (b : α) (h : l.get? n = some b) :
    l.set n b = l := by
  apply List.ext_get?
  intro m
  by_cases hm : n = m
  · subst hm
    obtain ⟨hlt, _⟩ := List.get?_eq_some.mp h
    rw [List.get?_set_eq_of_lt _ hlt, h]
  · rw [List.get?_set_ne _ _ hm]

theorem appendMany_ok :
    ∀ (xs : List (ℚ × ℚ)) (s : SensorDataStorage) (idx : Nat) (b : CircularBuffer),
      idx < s.sensor_count → s.buffers.get? idx = some b →
      s.appendMany (idx : Int) xs = .ok { s with buffers := s.buffers.set idx (b.appendAll xs) } := by
  intro xs
  induction xs with
  | nil =>
    intro s idx b hidx hget
    show Except.ok s = _
    rw [show b.appendAll [] = b from rfl, list_set_get_self s.buffers idx b hget]
  | cons x xs ih =>
    intro s idx b hidx hget
    have hidxI : ¬((idx : Int) < 0 ∨ (s.sensor_count : Int) ≤ (idx : Int)) := by
      push_neg
      exact ⟨by positivity, by exact_mod_cast hidx⟩
    have hstep : s.append (idx : Int) x.1 x.2
        = .ok { s with buffers := s.buffers.set idx (b.append x.1 x.2) } := by
      unfold SensorDataStorage.append
      rw [if_neg hidxI]
      rw [show ((idx : Int)).toNat = idx from Int.toNat_natCast idx, hget]
    show (s.append (idx : Int) x.1 x.2 >>= fun st => st.appendMany (idx : Int) xs) = _
    rw [hstep]
    have hlt : idx < s.buffers.length := (List.get?_eq_some.mp hget).1
    have hget2 : (s.buffers.set idx (b.append x.1 x.2)).get? idx = some (b.append x.1 x.2) :=
      List.get?_set_eq_of_lt _ hlt
    have := ih { s with buffers := s.buffers.set idx (b.append x.1 x.2) } idx
      (b.append x.1 x.2) hidx hget2
    show ({ s with buffers := s.buffers.set idx (b.append x.1 x.2) } : SensorDataStorage).appendMany (idx : Int) xs = _
    rw [this]
    simp only [List.set_set]
    rfl

theorem mkStorage_buffers_get (sc : Nat) (f : ℚ) (idx : Nat) (hidx : idx < sc) :
    (mkSensorDataStorage sc f).buffers.get? idx
      = some (mkCircularBuffer ((pyInt (f * 30) * 20).toNat)) := by
  unfold mkSensorDataStorage
  simp only
  rw [List.get?_map, List.get?_range hidx]
  rfl

theorem pyInt_of_nonneg (q : ℚ) (h : 0 ≤ q) : pyInt q = ⌊q⌋ := if_pos h

theorem floor_two_mul_ge (x : ℚ) : 2 * ⌊x⌋ ≤ ⌊2 * x⌋ := by
  apply Int.le_floor.mpr
  push_cast
  have := Int.floor_le x
  linarith

/-- The value of `windowOffsets` at position `i`. -/
def offBody (M T : Int) (i : Nat) : Int :=
  if (i : Int) = T - 1 then M - 1 else pyInt ((i : ℚ) * ((M : ℚ) / (T : ℚ)))

theorem windowOffsets_get (M T : Int) (i : Nat) (hi : i < T.toNat) :
    (windowOffsets M T).get? i = some (offBody M T i) :=
  get_range_map_length T.toNat _ i hi

theorem windowOffsets_length (M T : Int) : (windowOffsets M T).length = T.toNat := by
  unfold windowOffsets
  rw [List.length_map, List.length_range]

theorem offBody_bounds (M T : Int) (h1 : 1 ≤ T) (hTM : T ≤ M) (i : Nat) (hi : (i : Int) < T) :
    0 ≤ offBody M T i ∧ offBody M T i ≤ M - 1 := by
  unfold offBody
  split
  · omega
  · have hT0 : (0 : ℚ) < (T : ℚ) := by exact_mod_cast h1
    have hTMq : (T : ℚ) ≤ (M : ℚ) := by exact_mod_cast hTM
    have hM1 : (1 : ℚ) ≤ (M : ℚ) / (T : ℚ) := by
      rw [le_div_iff hT0]
      linarith
    have hstep0 : (0 : ℚ) ≤ (M : ℚ) / (T : ℚ) := by linarith
    have hnn : (0 : ℚ) ≤ (i : ℚ) * ((M : ℚ) / (T : ℚ)) := by positivity
    rw [pyInt_of_nonneg _ hnn]
    constructor
    · positivity
    · have hiT : (i : ℚ) ≤ (T : ℚ) - 1 := by
        have : (i : Int) ≤ T - 1 := by omega
        exact_mod_cast this
      have hub : (i : ℚ) * ((M : ℚ) / (T : ℚ)) ≤ (M : ℚ) - 1 := by
        have h2 : (i : ℚ) * ((M : ℚ) / (T : ℚ)) ≤ ((T : ℚ) - 1) * ((M : ℚ) / (T : ℚ)) := by
          apply mul_le_mul_of_nonneg_right hiT hstep0
        have h3 : ((T : ℚ) - 1) * ((M : ℚ) / (T : ℚ)) = (M : ℚ) - (M : ℚ) / (T : ℚ) := by
          field_simp
          ring
        rw [h3] at h2
        linarith
      calc ⌊(i : ℚ) * ((M : ℚ) / (T : ℚ))⌋ ≤ ⌊(M : ℚ) - 1⌋ := Int.floor_le_floor hub
        _ = M - 1 := by
          rw [show ((M : ℚ) - 1) = ((M - 1 : Int) : ℚ) by push_cast; ring, Int.floor_intCast]

theorem offBody_mono (M T : Int) (h1 : 1 ≤ T) (hTM : T ≤ M) (i : Nat) (hi : (i : Int) + 1 < T) :
    offBody M T i ≤ offBody M T (i + 1) := by
  have hbound := offBody_bounds M T h1 hTM i (by omega)
  by_cases hlast : ((i : Int) + 1) = T - 1
  · have : offBody M T (i + 1) = M - 1 := by
      unfold offBody
      rw [if_pos (by push_cast; omega)]
    rw [this]
    omega
  · have hlast2 : ¬((i + 1 : Nat) : Int) = T - 1 := by push_cast; omega
    have hi2 : ¬(i : Int) = T - 1 := by omega
    unfold offBody
    rw [if_neg hi2, if_neg hlast2]
    have hT0 : (0 : ℚ) < (T : ℚ) := by exact_mod_cast h1
    have hM0 : (0 : ℚ) ≤ (M : ℚ) := by
      have : (0 : Int) ≤ M := by omega
      exact_mod_cast this
    have hstep0 : (0 : ℚ) ≤ (M : ℚ) / (T : ℚ) := by positivity
    have hmul : (i : ℚ) * ((M : ℚ) / (T : ℚ)) ≤ ((i + 1 : Nat) : ℚ) * ((M : ℚ) / (T : ℚ)) := by
      apply mul_le_mul_of_nonneg_right _ hstep0
      push_cast
      linarith
    have hnn : (0 : ℚ) ≤ (i : ℚ) * ((M : ℚ) / (T : ℚ)) := by positivity
    have hnn2 : (0 : ℚ) ≤ ((i + 1 : Nat) : ℚ) * ((M : ℚ) / (T : ℚ)) := by positivity
    rw [pyInt_of_nonneg _ hnn, pyInt_of_nonneg _ hnn2]
    exact Int.floor_le_floor hmul

theorem mkStorage_buffers_length (sc : Nat) (f : ℚ) :
    (mkSensorDataStorage sc f).buffers.length = sc := by
  unfold mkSensorDataStorage
  simp only
  rw [List.length_map, List.length_range]

/-- C3: for every supported window `W ∈ {30,60,120,300,600}` and storage
sampling frequency `f` (with at least one point per 30 s window), once a
sensor's buffer holds `count ≥ f·W` samples appended in non-decreasing
time order, `get_data_for_window_seconds` returns exactly `int(f·30)`
samples in non-decreasing time order whose last sample is the most
recently appended one; any window value outside the supported set is
rejected as unsupported. -/
theorem C3_window_query (f : ℚ) (hf : 0 < f) (htarget : 1 ≤ pyInt (f * 30))
    (sc idx : Nat) (hidx : idx < sc) (W : Int) (hW : W ∈ DisplayDuration_values)
    (xs : List (ℚ × ℚ)) (hchain : List.Chain' (fun a b : ℚ × ℚ => a.1 ≤ b.1) xs)
    (hcount : f * (W : ℚ) ≤ ((min xs.length ((pyInt (f * 30) * 20).toNat) : Nat) : ℚ))
    (s' : SensorDataStorage)
    (hs : (mkSensorDataStorage sc f).appendMany (idx : Int) xs = .ok s') :
    (∃ l, s'.get_data_for_window_seconds (idx : Int) W = .ok l ∧
      l.length = (pyInt (f * 30)).toNat ∧
      (∀ i, i + 1 < l.length →
        ∃ p q, l.get? i = some p ∧ l.get? (i + 1) = some q ∧ p.1 ≤ q.1) ∧
      l.getLast? = xs.getLast?) ∧
    (∀ w : Int, w ∉ DisplayDuration_values →
      s'.get_data_for_window_seconds (idx : Int) w
        = .error ("Unsupported window_seconds: " ++ toString w)) := by
  have happ := appendMany_ok xs (mkSensorDataStorage sc f) idx _ hidx
    (mkStorage_buffers_get sc f idx hidx)
  rw [happ] at hs
  cases hs
  set T : Int := pyInt (f * 30) with hT
  set M : Int := pyInt (f * (W : ℚ)) with hM
  set Cnat : Nat := (T * 20).toNat with hCn
  set buf : CircularBuffer := (mkCircularBuffer Cnat).appendAll xs with hbuf
  set count : Nat := min xs.length Cnat with hcount2
  set s' : SensorDataStorage :=
    { mkSensorDataStorage sc f with buffers := (mkSensorDataStorage sc f).buffers.set idx buf }
    with hs'
  have hCpos : 1 ≤ Cnat := by omega
  have hBM : BufModels buf Cnat xs := bufModels_of_appendAll_mk hCpos xs
  have hbufcount : buf.count = count := bufModels_count hBM
  have hf30 : (0 : ℚ) ≤ f * 30 := by positivity
  have hTfloor : T = ⌊f * 30⌋ := pyInt_of_nonneg _ hf30
  have hW30 : (30 : Int) ≤ W := by
    simp [DisplayDuration_values] at hW
    rcases hW with rfl | rfl | rfl | rfl | rfl <;> omega
  have hWq : (30 : ℚ) ≤ (W : ℚ) := by exact_mod_cast hW30
  have hfW0 : (0 : ℚ) ≤ f * (W : ℚ) := by positivity
  have hMfloor : M = ⌊f * (W : ℚ)⌋ := pyInt_of_nonneg _ hfW0
  have hTM : T ≤ M := by
    rw [hTfloor, hMfloor]
    apply Int.floor_le_floor
    nlinarith
  have hMcount : M ≤ (count : Int) := by
    have h1 : (M : ℚ) ≤ f * (W : ℚ) := by rw [hMfloor]; exact Int.floor_le _
    have h2 : (M : ℚ) ≤ (count : ℚ) := le_trans h1 hcount
    exact_mod_cast h2
  have hMpos : 1 ≤ M := le_trans htarget hTM
  have hcount1 : 1 ≤ count := by omega
  have hn1 : 1 ≤ xs.length := by omega
  have hMtoNat : (M.toNat : Int) = M := Int.toNat_of_nonneg (by omega)
  have hMleC : M.toNat ≤ count := by omega
  have hidxI : ¬((idx : Int) < 0 ∨ (s'.sensor_count : Int) ≤ (idx : Int)) := by
    push_neg
    constructor
    · positivity
    · show (idx : Int) < (sc : Int)
      exact_mod_cast hidx
  have hrpc : s'.reference_points_count = T := rfl
  have hrpc2 : (mkSensorDataStorage sc f).reference_points_count = T := rfl
  have hsf : s'.sampling_frequency = f := rfl
  have hpre : s'.precomputedWindow W = some (M, windowOffsets M T) := by
    unfold SensorDataStorage.precomputedWindow
    rw [if_pos hW, hrpc, hsf]
    rw [if_neg (by omega : ¬(T ≤ 0 ∨ pyInt (f * (W : ℚ)) ≤ 0))]
  have hbget : s'.buffers.get? ((idx : Int)).toNat = some buf := by
    rw [Int.toNat_natCast]
    show ((mkSensorDataStorage sc f).buffers.set idx buf).get? idx = some buf
    apply List.get?_set_eq_of_lt
    rw [mkStorage_buffers_length]
    exact hidx
  have hsz : buf.size = count := hbufcount
  have hsz0 : ¬(buf.size = 0) := by omega
  have havail : min ((buf.size : Nat) : Int) M = M := by
    rw [hsz]
    omega
  constructor
  · -- supported-window part
    unfold SensorDataStorage.get_data_for_window_seconds
    rw [if_neg hidxI, hpre, hbget]
    simp only [hrpc, hrpc2, hsz]
    rw [if_neg (show ¬(count = 0) by omega)]
    have havail2 : Min.min ((count : Nat) : Int) M = M := by omega
    simp only [havail2]
    have hWsplit : W = 30 ∨ 60 ≤ W := by
      simp [DisplayDuration_values] at hW
      rcases hW with rfl | rfl | rfl | rfl | rfl <;> omega
    rcases hWsplit with h30 | h60
    · -- W = 30: M = T, case 1 (get_range of the last T samples)
      have hMT30 : M = T := by
        rw [hM, hT, h30]
        norm_num
      rw [if_pos (by omega : M ≤ T)]
      have hcast1 : (count : Int) - M = ((count - M.toNat : Nat) : Int) := by omega
      rw [hcast1]
      obtain ⟨l, hl, hlen, helts⟩ :=
        bufModels_get_range hCpos hBM (count - M.toNat) count (by omega) (by rw [hbufcount])
      simp only [hbufcount] at helts
      rw [hl]
      have hlsize : l.length = M.toNat := by omega
      refine ⟨l, rfl, by omega, ?_, ?_⟩
      · intro i hi
        have hbc : count ≤ xs.length := by omega
        have hp1 : xs.length - count + (count - M.toNat) + i < xs.length := by omega
        have hp2 : xs.length - count + (count - M.toNat) + (i + 1) < xs.length := by omega
        refine ⟨xs.get ⟨_, hp1⟩, xs.get ⟨_, hp2⟩, ?_, ?_, ?_⟩
        · rw [helts i (by omega), List.get?_eq_get hp1]
        · rw [helts (i + 1) (by omega), List.get?_eq_get hp2]
        · exact chain_le_get_le hchain _ _ (by omega) _ _
            (List.get?_eq_get hp1) (List.get?_eq_get hp2)
      · rw [List.getLast?_eq_get?, List.getLast?_eq_get?, hlsize]
        rw [helts (M.toNat - 1) (by omega)]
        congr 1
        omega
    · -- W60marker: full-window case with precomputed offsets
      have h2T : 2 * T ≤ M := by
        have hq60 : (60 : ℚ) ≤ (W : ℚ) := by exact_mod_cast h60
        have hle : 2 * (f * 30) ≤ f * (W : ℚ) := by nlinarith
        have := Int.floor_le_floor hle
        have h2f : 2 * ⌊f * 30⌋ ≤ ⌊2 * (f * 30)⌋ := floor_two_mul_ge _
        rw [hTfloor, hMfloor]
        omega
      rw [if_neg (by omega : ¬(M ≤ T)), if_pos (le_refl M)]
      have hmm := mapM_option_some (windowOffsets M T)
        (fun off => buf.get ((count : Int) - M + off))
        (fun off => (xs.get? (xs.length - M.toNat + off.toNat)).getD (0, 0)) (by
          intro off hoff
          obtain ⟨i, hi, hoeq⟩ := List.mem_map.mp hoff
          have hiT : i < T.toNat := List.mem_range.mp hi
          have hob : 0 ≤ offBody M T i ∧ offBody M T i ≤ M - 1 :=
            offBody_bounds M T htarget hTM i (by omega)
          have hoeq2 : off = offBody M T i := by
            rw [← hoeq]
            rfl
          show buf.get ((count : Int) - M + off)
              = some ((xs.get? (xs.length - M.toNat + off.toNat)).getD (0, 0))
          have hcast2 : (count : Int) - M + off
              = ((count - M.toNat + off.toNat : Nat) : Int) := by omega
          rw [hcast2, bufModels_get hCpos hBM _ (by rw [hbufcount]; omega)]
          have harg : xs.length - buf.count + (count - M.toNat + off.toNat)
              = xs.length - M.toNat + off.toNat := by
            rw [hbufcount]
            omega
          rw [harg, List.get?_eq_get (by omega : xs.length - M.toNat + off.toNat < xs.length)]
          rfl)
      rw [hmm]
      set g : Int → ℚ × ℚ := fun off => (xs.get? (xs.length - M.toNat + off.toNat)).getD (0, 0)
        with hg
      refine ⟨_, rfl, ?_, ?_, ?_⟩
      · rw [List.length_map, windowOffsets_length]
      · intro i hi
        rw [List.length_map, windowOffsets_length] at hi
        have hgi : ∀ j, j < T.toNat →
            ((windowOffsets M T).map g).get? j = some (g (offBody M T j)) := by
          intro j hj
          rw [List.get?_map, windowOffsets_get M T j hj]
          rfl
        have hob1 := offBody_bounds M T htarget hTM i (by omega)
        have hob2 := offBody_bounds M T htarget hTM (i + 1) (by omega)
        have hmono := offBody_mono M T htarget hTM i (by omega)
        have hp1 : xs.length - M.toNat + (offBody M T i).toNat < xs.length := by omega
        have hp2 : xs.length - M.toNat + (offBody M T (i + 1)).toNat < xs.length := by omega
        refine ⟨g (offBody M T i), g (offBody M T (i + 1)),
          hgi i (by omega), hgi (i + 1) (by omega), ?_⟩
        have hv1 : g (offBody M T i) = xs.get ⟨_, hp1⟩ := by
          show (xs.get? (xs.length - M.toNat + (offBody M T i).toNat)).getD (0, 0) = _
          rw [List.get?_eq_get hp1]
          rfl
        have hv2 : g (offBody M T (i + 1)) = xs.get ⟨_, hp2⟩ := by
          show (xs.get? (xs.length - M.toNat + (offBody M T (i + 1)).toNat)).getD (0, 0) = _
          rw [List.get?_eq_get hp2]
          rfl
        rw [hv1, hv2]
        exact chain_le_get_le hchain _ _ (by omega) _ _
          (List.get?_eq_get hp1) (List.get?_eq_get hp2)
      · rw [List.getLast?_eq_get?, List.getLast?_eq_get?, List.length_map, windowOffsets_length]
        rw [List.get?_map, windowOffsets_get M T (T.toNat - 1) (by omega)]
        have hlast : offBody M T (T.toNat - 1) = M - 1 := by
          unfold offBody
          rw [if_pos (by omega)]
        rw [hlast]
        show some ((xs.get? (xs.length - M.toNat + (M - 1).toNat)).getD (0, 0))
            = xs.get? (xs.length - 1)
        have harg2 : xs.length - M.toNat + (M - 1).toNat = xs.length - 1 := by omega
        rw [harg2, List.get?_eq_get (by omega : xs.length - 1 < xs.length)]
        rfl
  · -- unsupported windows are rejected
    intro w hw
    unfold SensorDataStorage.get_data_for_window_seconds
    rw [if_neg hidxI]
    have hnone : s'.precomputedWindow w = none := by
      unfold SensorDataStorage.precomputedWindow
      rw [if_neg hw]
    rw [hnone]

/-- Witness for C3: frequency 1/30 (one point per 30 s), window 60 s,
two appended samples. -/
theorem C3_window_query_witness :
    ∃ s', (mkSensorDataStorage 1 ((1 : ℚ)/30)).appendMany ((0 : Nat) : Int)
        [((0 : ℚ), (5 : ℚ)), (1, 6)] = Except.ok s' ∧
      ((∃ l, s'.get_data_for_window_seconds ((0 : Nat) : Int) 60 = .ok l ∧
        l.length = (pyInt (((1 : ℚ)/30) * 30)).toNat ∧
        (∀ i, i + 1 < l.length →
          ∃ p q, l.get? i = some p ∧ l.get? (i + 1) = some q ∧ p.1 ≤ q.1) ∧
        l.getLast? = [((0 : ℚ), (5 : ℚ)), (1, 6)].getLast?) ∧
      (∀ w : Int, w ∉ DisplayDuration_values →
        s'.get_data_for_window_seconds ((0 : Nat) : Int) w
          = .error ("Unsupported window_seconds: " ++ toString w))) := by
  have happ := appendMany_ok [((0 : ℚ), (5 : ℚ)), (1, 6)] (mkSensorDataStorage 1 ((1 : ℚ)/30)) 0 _
    (by norm_num [mkSensorDataStorage]) (mkStorage_buffers_get 1 ((1 : ℚ)/30) 0 (by norm_num))
  exact ⟨_, happ, C3_window_query ((1 : ℚ)/30) (by norm_num)
    (by norm_num [pyInt]) 1 0 (by norm_num) 60 (by decide)
    [((0 : ℚ), (5 : ℚ)), (1, 6)] (by norm_num [List.chain'_cons])
    (by norm_num [pyInt]) _ happ⟩

/-! ### data.csv header (src/core/services/test_manager.py, _on_processed_data) -/

/-- Python's `<` on strings: lexicographic comparison by code point. -/
def charListLt : List Char → List Char → Bool
  | [], [] => false
  | [], _ :: _ => true
  | _ :: _, [] => false
  | a :: as, b :: bs =>
    if a.toNat < b.toNat then true
    else if a = b then charListLt as bs
    else false

def pyStrLt (a b : String) : Bool := charListLt a.data b.data

def insertSortedStr (x : String) : List String → List String
  | [] => [x]
  | y :: ys => if pyStrLt y x then y :: insertSortedStr x ys else x :: y :: ys

/-- Python `sorted` on a list of strings (lexicographic by code point). -/
def pySorted (l : List String) : List String := l.foldr insertSortedStr []

/-- The `data.csv` header computed on the first processed frame:
`["timestamp", "relative_time"] + sorted(sensor.name for sensor in SensorId)`. -/
def dataCsvHeaders : List String :=
  ["timestamp", "relative_time"] ++ pySorted (sensorIdMembers.map SensorId.enumName)

/-! ### Test manager state machine (src/core/services/test_manager.py)

Only the state the lifecycle operations read and write is modelled: the
current test, the running/stopped flags, the open-file flags, the ring
buffer store and the start time.  File contents and PIL images are
side effects outside the state machine. -/

structure TestMetaData where
  test_id : String
  date : String
  operator_name : String
  specimen_code : String
deriving DecidableEq

structure TMState where
  current_test : Option TestMetaData
  is_running : Bool
  is_stopped : Bool
  raw_file : Bool
  csv_file : Bool
  csv_writer : Bool
  raw_csv_file : Bool
  raw_csv_writer : Bool
  current_test_dir : Option String
  data_storage : SensorDataStorage
  start_time : ℚ

inductive TMEvent where
  | test_prepared (m : TestMetaData)
  | test_stopped (m : TestMetaData)
  | test_state_changed (b : Bool)
deriving DecidableEq

/-- `get_test_state()`. -/
def TMState.get_test_state (s : TMState) : TestState :=
  if s.is_running then .RUNNING
  else if s.is_stopped then .STOPPED
  else if s.current_test ≠ none then .PREPARED
  else .NOTHING

/-- `"".join(c for c in test_id if c.isalnum() or c in ('-','_'))`,
defaulting to "test" when empty (ASCII alphanumerics suffice for the
ids exercised here). -/
def sanitizeTestId (s : String) : String :=
  let kept := String.mk (s.toList.filter (fun c => c.isAlphanum ∨ c = '-' ∨ c = '_'))
  if kept = "" then "test" else kept

/-- `prepare_test(metadata)`: raises `RuntimeError` (mapped to 409
Conflict by the router) only when `is_running`; otherwise assigns the
timestamped id, stores the metadata as the current test, creates the
test directory (kept as `current_test_dir`; the `metadata.json` and
`description.md` writes are file effects) and publishes `test_prepared`.
The `timestamp` argument models `datetime.now().strftime(...)`. -/
def TMState.prepare_test (s : TMState) (metadata : TestMetaData) (timestamp : String) :
    Except String (TMState × List TMEvent) :=
  if s.is_running then .error "A test is already running."
  else
    let final_id := timestamp ++ "_" ++ sanitizeTestId metadata.test_id
    let md := { metadata with test_id := final_id }
    .ok ({ s with current_test := some md,
                  current_test_dir := some ("storage/data/test_data/" ++ final_id) },
      [TMEvent.test_prepared md])

/-- `stop_test()`: return silently when no current test or not running;
otherwise close the three files (the `raw_csv_file` branch also nulls
`csv_writer`, as in the source), save the graphiques (file effect),
flip the flags and publish `test_stopped` and `test_state_changed`. -/
def TMState.stop_test (s : TMState) : TMState × List TMEvent :=
  match s.current_test with
  | none => (s, [])
  | some t =>
    if !s.is_running then (s, [])
    else
      let s1 := if s.raw_file then { s with raw_file := false } else s
      let s2 := if s1.csv_file then { s1 with csv_file := false } else s1
      let s3 :=
        if s2.raw_csv_file then { s2 with raw_csv_file := false, csv_writer := false } else s2
      ({ s3 with is_running := false, is_stopped := true },
        [TMEvent.test_stopped t, TMEvent.test_state_changed false])

/-! ### data.csv row formatting (same file, _on_processed_data) -/

def time_decimals : Nat := 3

def force_decimals : Nat := 2

def disp_decimals : Nat := 6

/-- One sensor cell of a data.csv row: Python `None` maps to the empty
field; `FORCE` is formatted with 2 decimals; `DISP_1/2/3` with 6; for
any other member (i.e. `ARC`) the elif chain next evaluates
`SensorId.DISP_4`, which does not exist in the enum, so the attribute
access raises `AttributeError` (modelled `none`) and the trailing
default branch is unreachable. -/
def formatProcessedCell (sensor_id : SensorId) (val : Option PyFloat) : Option String :=
  match val with
  | none => some ""
  | some v =>
    if sensor_id = SensorId.FORCE then some (pyFormatFixed force_decimals v)
    else if sensor_id = SensorId.DISP_1 ∨ sensor_id = SensorId.DISP_2
        ∨ sensor_id = SensorId.DISP_3 then some (pyFormatFixed disp_decimals v)
    else none

/-- The data.csv row for one processed frame: timestamp and
relative_time cells (3 decimals) plus one cell per enum member, in
iteration order; a failing cell aborts the handler, so no row is
written. -/
def processedCsvRow (t rel_time : PyFloat) (values : List (Option PyFloat)) :
    Option (List (String × String)) :=
  (sensorIdMembers.mapM (fun (sid : SensorId) =>
      match values.get? sid.value with
      | none => none
      | some v => (formatProcessedCell sid v).map (fun str => (sid.enumName, str)))).map
    (fun cells =>
      [("timestamp", pyFormatFixed time_decimals t),
       ("relative_time", pyFormatFixed time_decimals rel_time)] ++ cells)

/-- C1 (code-bug evidence): the enum as declared has exactly five
members with the dense values 0..4, so the data.csv header computed from
it is the 7-column `timestamp,relative_time,ARC,DISP_1,DISP_2,DISP_3,FORCE`
rather than the 9-column header (with DISP_4 and DISP_5) required by the
spec and relied upon by the rest of the code base and the test suite. -/
theorem C1_sensor_enum_and_header :
    sensorIdMembers.length = 5 ∧
    sensorIdMembers.map SensorId.value = [0, 1, 2, 3, 4] ∧
    (sensorIdMembers.map SensorId.value).Nodup ∧
    dataCsvHeaders
      = ["timestamp", "relative_time", "ARC", "DISP_1", "DISP_2", "DISP_3", "FORCE"] ∧
    dataCsvHeaders
      ≠ ["timestamp", "relative_time", "ARC", "DISP_1", "DISP_2", "DISP_3", "DISP_4",
         "DISP_5", "FORCE"] := by
  refine ⟨rfl, rfl, by decide, by decide, by decide⟩

def metaRun1 : TestMetaData :=
  { test_id := "run-1", date := "2026-01-14", operator_name := "Op", specimen_code := "S1" }

def metaRun2 : TestMetaData :=
  { test_id := "run-2", date := "2026-01-15", operator_name := "Op", specimen_code := "S2" }

def tmPrepared : TMState :=
  { current_test := some metaRun1, is_running := false, is_stopped := false,
    raw_file := false, csv_file := false, csv_writer := false,
    raw_csv_file := false, raw_csv_writer := false,
    current_test_dir := some "storage/data/test_data/run-1",
    data_storage := mkSensorDataStorage 5 4, start_time := 0 }

def tmRunning : TMState :=
  { tmPrepared with is_running := true, raw_file := true, csv_file := true, raw_csv_file := true }

/-- C4 (counterexample): in state PREPARED, `prepare_test` does not fail
with Conflict — it succeeds and replaces the current test metadata. -/
theorem C4_prepare_in_prepared_succeeds :
    TMState.get_test_state tmPrepared = TestState.PREPARED ∧
    (tmPrepared.prepare_test metaRun2 "20260114_120000").isOk = true ∧
    (∀ s1 evs, tmPrepared.prepare_test metaRun2 "20260114_120000" = .ok (s1, evs) →
      s1.current_test ≠ tmPrepared.current_test) := by
  refine ⟨rfl, rfl, ?_⟩
  intro s1 evs h
  rw [show tmPrepared.prepare_test metaRun2 "20260114_120000"
      = Except.ok
          ({ tmPrepared with
              current_test := some { metaRun2 with test_id := "20260114_120000_run-2" },
              current_test_dir := some "storage/data/test_data/20260114_120000_run-2" },
            [TMEvent.test_prepared { metaRun2 with test_id := "20260114_120000_run-2" }])
      from rfl] at h
  injection h with h2
  injection h2 with h3 h4
  subst h3
  decide

/-- C4 (amended): `prepare_test` fails with Conflict exactly when a test
is RUNNING; in the states NOTHING, PREPARED and STOPPED it succeeds
(replacing the current test metadata). -/
theorem C4_prepare_conflict_iff_running (s : TMState) (m : TestMetaData) (ts : String) :
    (TMState.get_test_state s = TestState.RUNNING →
      s.prepare_test m ts = .error "A test is already running.") ∧
    (TMState.get_test_state s ≠ TestState.RUNNING → (s.prepare_test m ts).isOk = true) := by
  constructor
  · intro hR
    unfold TMState.prepare_test
    by_cases hr : s.is_running
    · rw [if_pos hr]
    · unfold TMState.get_test_state at hR
      rw [if_neg hr] at hR
      split at hR
      · simp_all
      · split at hR <;> simp_all
  · intro hNR
    unfold TMState.prepare_test
    by_cases hr : s.is_running
    · unfold TMState.get_test_state at hNR
      rw [if_pos hr] at hNR
      simp at hNR
    · rw [if_neg hr]
      rfl

/-- Witness for C4's amended statement: Conflict from RUNNING, success
from PREPARED. -/
theorem C4_prepare_conflict_iff_running_witness :
    tmRunning.prepare_test metaRun2 "20260114_130000" = .error "A test is already running." ∧
    (tmPrepared.prepare_test metaRun2 "20260114_130000").isOk = true :=
  ⟨(C4_prepare_conflict_iff_running tmRunning metaRun2 "20260114_130000").1 rfl,
   (C4_prepare_conflict_iff_running tmPrepared metaRun2 "20260114_130000").2 (by decide)⟩

/-- C6 (code-bug evidence): building the data.csv row for a processed
frame (whose values are floats, never Python `None`) fails at the ARC
column — the elif chain dereferences the missing `SensorId.DISP_4` — so
no data row is ever written; moreover only `None` maps to an empty
field, a float NaN would be rendered as the text "nan". -/
theorem C6_processed_row_never_written :
    processedCsvRow (PyFloat.num 100) (PyFloat.num 1)
      [some (PyFloat.num 1), some (PyFloat.num 2), some (PyFloat.num 3), some (PyFloat.num 4),
       some (PyFloat.num 2)] = none ∧
    formatProcessedCell SensorId.ARC (some (PyFloat.num 2)) = none ∧
    formatProcessedCell SensorId.FORCE (some PyFloat.nan) = some "nan" ∧
    pyFormatFixed force_decimals PyFloat.nan = "nan" ∧
    ("nan" : String) ≠ "" ∧
    formatProcessedCell SensorId.FORCE none = some "" :=
  ⟨rfl, rfl, rfl, rfl, by decide, rfl⟩

/-- C10: `stop_test` in state NOTHING or PREPARED returns without error,
publishes no events and leaves the whole test-manager state (current
test, flags, file handles, ring buffers) unchanged. -/
theorem C10_stop_test_noop (s : TMState)
    (h : TMState.get_test_state s = TestState.NOTHING ∨
      TMState.get_test_state s = TestState.PREPARED) :
    s.stop_test = (s, []) := by
  unfold TMState.stop_test
  cases hcur : s.current_test with
  | none => rfl
  | some t =>
    have hr : s.is_running = false := by
      cases hrr : s.is_running
      · rfl
      · unfold TMState.get_test_state at h
        rw [if_pos hrr] at h
        rcases h with h | h <;> exact absurd h (by decide)
    rw [hr]
    rfl

/-- Witness for C10 at a concrete PREPARED state. -/
theorem C10_stop_test_noop_witness : tmPrepared.stop_test = (tmPrepared, []) :=
  C10_stop_test_noop tmPrepared (Or.inr rfl)

/-! ### SensorManager (src/core/services/sensor_manager.py)

State: `sensors` and `offsets` are the two per-sensor float lists (both
initialised to `[0.0 for _ in SensorId]`).  Event-hub publications are
returned as an ordered event list; `time.time()` is called once per
published event, passed in here as `now1`/`now2`. -/

structure SMState where
  sensors : List PyFloat
  offsets : List PyFloat
deriving DecidableEq

def initialSMState : SMState :=
  { sensors := sensorIdMembers.map (fun _ => PyFloat.num 0),
    offsets := sensorIdMembers.map (fun _ => PyFloat.num 0) }

inductive SMEvent where
  | sensor_raw_update (timestamp : ℚ) (sid : SensorId) (value : PyFloat)
  | sensor_update (timestamp : ℚ) (sid : SensorId) (value : PyFloat)
deriving DecidableEq

/-- `SensorManager._notify`: computes `corrected = value - offsets[sid]`,
publishes `sensor_raw_update` with the uncorrected value first, stores the
corrected value in `sensors[sid]`, then publishes `sensor_update` with the
corrected value.  The returned event list is in publication order. -/
def SMState.notify (st : SMState) (sid : SensorId) (value : PyFloat) (now1 now2 : ℚ) :
    SMState × List SMEvent :=
  let offset := (st.offsets.get? sid.value).getD (PyFloat.num 0)
  let corrected := value - offset
  ({ st with sensors := st.sensors.set sid.value corrected },
   [SMEvent.sensor_raw_update now1 sid value,
    SMEvent.sensor_update now2 sid corrected])

structure SensorCommand where
  action : String
  sensor_id : Option SensorId

/-- `SensorManager._on_command`: on `{action: "zero", sensor_id}` with a
genuine `SensorId`, sets `offsets[sid] = offsets[sid] + sensors[sid]`. -/
def SMState.on_command (st : SMState) (cmd : SensorCommand) : SMState :=
  if cmd.action = "zero" then
    match cmd.sensor_id with
    | some sid =>
      { st with offsets :=
          (st.offsets.set sid.value
            ((st.offsets.get? sid.value).getD (PyFloat.num 0) +
              (st.sensors.get? sid.value).getD (PyFloat.num 0))) }
    | none => st
  else st

/-- The token scan of `SensorManager._parse_motion`: for each
whitespace-separated part, `usSenderId=...` (re)assigns `sender_id` to the
piece after the `=`, and `Val=...` (re)assigns `val` when the piece after
the `=` parses as a float (a `ValueError` there is swallowed).  Both
`split("=")[1]` accesses are total because the part starts with a
token containing `=`. -/
def motionScan (acc : Option String × Option ℚ) : List String → Option String × Option ℚ
  | [] => acc
  | part :: rest =>
    if pyStartsWith part "usSenderId=" then
      motionScan ((pySplitOn part '=').get? 1, acc.2) rest
    else if pyStartsWith part "Val=" then
      match (pySplitOn part '=').get? 1 with
      | some piece =>
        match parseFloat piece with
        | some v => motionScan (acc.1, some v) rest
        | none => motionScan acc rest
      | none => motionScan acc rest
    else motionScan acc rest

def motionVal (line : String) : Option ℚ := (motionScan (none, none) (pySplit line)).2

/-- `SensorManager._parse_motion`: scans the tokens and calls `_notify`
iff `sender_id` is truthy (set and non-empty) and `val` was parsed.  No
comparison of the sender id against any configured serialId is made. -/
def SMState.parse_motion (st : SMState) (sid : SensorId) (line : String) (now1 now2 : ℚ) :
    SMState × List SMEvent :=
  match motionScan (none, none) (pySplit line) with
  | (some sender, some v) =>
    if sender = "" then (st, []) else st.notify sid (PyFloat.num v) now1 now2
  | _ => (st, [])

/-- `SensorManager._parse_force`: needs at least 5 whitespace-separated
parts and a parseable 5th part. -/
def SMState.parse_force (st : SMState) (sid : SensorId) (line : String) (now1 now2 : ℚ) :
    SMState × List SMEvent :=
  if 5 ≤ (pySplit line).length then
    match parseFloat (((pySplit line).get? 4).getD "") with
    | some v => st.notify sid (PyFloat.num v) now1 now2
    | none => (st, [])
  else (st, [])

/-- `SensorManager._on_serial_data` (hardware mode): dispatch on the
sensor id attached to the line.  For `ARC` the elif chain evaluates the
missing attribute `SensorId.DISP_4`; the resulting `AttributeError` is
swallowed by the surrounding `except`, so nothing happens. -/
def SMState.on_serial_data (st : SMState) (sid : SensorId) (line : String) (now1 now2 : ℚ) :
    SMState × List SMEvent :=
  match sid with
  | .FORCE => st.parse_force .FORCE line now1 now2
  | .DISP_1 => st.parse_motion .DISP_1 line now1 now2
  | .DISP_2 => st.parse_motion .DISP_2 line now1 now2
  | .DISP_3 => st.parse_motion .DISP_3 line now1 now2
  | .ARC => (st, [])

def line01 : String := "76 144 262 us SPC_VAL usSenderId=0x2E01 ulMicros=76071216 Val=1.234"

def line99 : String := "76 144 262 us SPC_VAL usSenderId=0x2E99 ulMicros=76071216 Val=1.234"

/-- C5 (counterexample): the line carrying the unconfigured sender id
`0x2E99` still produces a full update on DISP_2 — raw and corrected
events are published and `values[DISP_2]` is set to 1.234 — because
`_parse_motion` never compares `usSenderId` against the configured
serialId. -/
theorem C5_mismatched_sender_still_updates :
    motionVal line99 = some ((1234 : ℚ) / 1000) ∧
    (initialSMState.on_serial_data SensorId.DISP_2 line99 7 8).2 ≠ [] ∧
    (initialSMState.on_serial_data SensorId.DISP_2 line99 7 8).1.sensors.get? 2
      = some (PyFloat.num ((motionVal line99).getD 0) - PyFloat.num 0) ∧
    PyFloat.num ((motionVal line99).getD 0) - PyFloat.num 0
      = PyFloat.num ((1234 : ℚ) / 1000) := by
  have hshape : (motionVal line99).getD 0
      = 1 * (((1 : ℕ) : ℚ) + ((234 : ℕ) : ℚ) / (10 : ℚ) ^ (3 : ℕ)) := rfl
  have hq : (motionVal line99).getD 0 = (1234 : ℚ) / 1000 := by
    rw [hshape]; norm_num
  have hevents : (initialSMState.on_serial_data SensorId.DISP_2 line99 7 8).2
      = [SMEvent.sensor_raw_update 7 SensorId.DISP_2 (PyFloat.num ((motionVal line99).getD 0)),
         SMEvent.sensor_update 8 SensorId.DISP_2
           (PyFloat.num ((motionVal line99).getD 0) - PyFloat.num 0)] := rfl
  refine ⟨?_, ?_, rfl, ?_⟩
  · rw [show motionVal line99 = some ((motionVal line99).getD 0) from rfl, hq]
  · rw [hevents]; exact List.cons_ne_nil _ _
  · rw [show PyFloat.num ((motionVal line99).getD 0) - PyFloat.num 0
        = PyFloat.num ((motionVal line99).getD 0 - 0) from rfl, hq]
    norm_num

/-- C5 (amended): `_parse_motion` performs no serialId check at all: any
motion line whose scan yields a non-empty `usSenderId` token and a parsed
`Val` produces the update `_notify(sensor_id, val)`, whatever the sender
id is — so both `0x2E01` and `0x2E99` set `values[DISP_2] = 1.234`. -/
theorem C5_motion_update_ignores_sender (st : SMState) (sid : SensorId) (line : String)
    (sender : String) (v : ℚ) (now1 now2 : ℚ)
    (hscan : motionScan (none, none) (pySplit line) = (some sender, some v))
    (hs : sender ≠ "") :
    st.parse_motion sid line now1 now2 = st.notify sid (PyFloat.num v) now1 now2 := by
  unfold SMState.parse_motion
  rw [hscan]
  show (if sender = "" then (st, []) else st.notify sid (PyFloat.num v) now1 now2)
      = st.notify sid (PyFloat.num v) now1 now2
  rw [if_neg hs]

/-- Witness for C5's amended statement: both the configured line
(`0x2E01`) and the unconfigured one (`0x2E99`) dispatch the same update
on DISP_2. -/
theorem C5_motion_update_ignores_sender_witness :
    initialSMState.parse_motion SensorId.DISP_2 line01 7 8
      = initialSMState.notify SensorId.DISP_2 (PyFloat.num ((motionVal line01).getD 0)) 7 8 ∧
    initialSMState.parse_motion SensorId.DISP_2 line99 7 8
      = initialSMState.notify SensorId.DISP_2 (PyFloat.num ((motionVal line99).getD 0)) 7 8 :=
  ⟨C5_motion_update_ignores_sender initialSMState SensorId.DISP_2 line01 "0x2E01"
      ((motionVal line01).getD 0) 7 8 rfl (by decide),
   C5_motion_update_ignores_sender initialSMState SensorId.DISP_2 line99 "0x2E99"
      ((motionVal line99).getD 0) 7 8 rfl (by decide)⟩

/-- C8: the zero command sets `offsets[sid]` to its old value plus the
current calibrated `sensors[sid]`; a subsequent raw arrival `v` publishes
`sensor_raw_update` carrying the uncorrected `v` strictly before the
`sensor_update` carrying `v - offsets[sid]` (the event list is in
publication order), and stores the corrected value. -/
theorem C8_zero_then_corrected_update (st : SMState) (sid : SensorId) (cur off : PyFloat)
    (hcur : st.sensors.get? sid.value = some cur)
    (hoff : st.offsets.get? sid.value = some off)
    (v : PyFloat) (now1 now2 : ℚ) :
    (st.on_command ⟨"zero", some sid⟩).offsets.get? sid.value = some (off + cur) ∧
    (st.on_command ⟨"zero", some sid⟩).notify sid v now1 now2
      = ({ st.on_command ⟨"zero", some sid⟩ with
            sensors := (st.on_command ⟨"zero", some sid⟩).sensors.set sid.value
              (v - (off + cur)) },
         [SMEvent.sensor_raw_update now1 sid v,
          SMEvent.sensor_update now2 sid (v - (off + cur))]) := by
  have hlt : sid.value < st.offsets.length := (List.get?_eq_some.mp hoff).1
  have hzoff : (st.on_command ⟨"zero", some sid⟩).offsets.get? sid.value = some (off + cur) := by
    show (st.offsets.set sid.value
        ((st.offsets.get? sid.value).getD (PyFloat.num 0) +
          (st.sensors.get? sid.value).getD (PyFloat.num 0))).get? sid.value = some (off + cur)
    rw [hcur, hoff]
    simp only [Option.getD_some]
    exact List.get?_set_eq_of_lt _ hlt
  refine ⟨hzoff, ?_⟩
  show ({ st.on_command ⟨"zero", some sid⟩ with
          sensors := (st.on_command ⟨"zero", some sid⟩).sensors.set sid.value
            (v - ((st.on_command ⟨"zero", some sid⟩).offsets.get? sid.value).getD
              (PyFloat.num 0)) },
        [SMEvent.sensor_raw_update now1 sid v,
         SMEvent.sensor_update now2 sid
           (v - ((st.on_command ⟨"zero", some sid⟩).offsets.get? sid.value).getD
             (PyFloat.num 0))])
      = _
  rw [hzoff]
  simp only [Option.getD_some]

def smForce42 : SMState :=
  { sensors := [PyFloat.num 42, PyFloat.num 0, PyFloat.num 0, PyFloat.num 0, PyFloat.num 0],
    offsets := [PyFloat.num 0, PyFloat.num 0, PyFloat.num 0, PyFloat.num 0, PyFloat.num 0] }

/-- Witness for C8 at the spec's concrete scenario: `values[FORCE] = 42.0`,
`offsets[FORCE] = 0.0`, `zero(FORCE)`, then the raw arrival `42.1` yields a
`sensor_update` value of exactly `0.1`. -/
theorem C8_zero_then_corrected_update_witness :
    ((smForce42.on_command ⟨"zero", some SensorId.FORCE⟩).offsets.get? SensorId.FORCE.value
        = some (PyFloat.num 0 + PyFloat.num 42) ∧
      (smForce42.on_command ⟨"zero", some SensorId.FORCE⟩).notify SensorId.FORCE
          (PyFloat.num ((421 : ℚ) / 10)) 7 8
        = ({ smForce42.on_command ⟨"zero", some SensorId.FORCE⟩ with
              sensors := (smForce42.on_command ⟨"zero", some SensorId.FORCE⟩).sensors.set
                SensorId.FORCE.value
                (PyFloat.num ((421 : ℚ) / 10) - (PyFloat.num 0 + PyFloat.num 42)) },
           [SMEvent.sensor_raw_update 7 SensorId.FORCE (PyFloat.num ((421 : ℚ) / 10)),
            SMEvent.sensor_update 8 SensorId.FORCE
              (PyFloat.num ((421 : ℚ) / 10) - (PyFloat.num 0 + PyFloat.num 42))])) ∧
    PyFloat.num ((421 : ℚ) / 10) - (PyFloat.num 0 + PyFloat.num 42)
      = PyFloat.num ((1 : ℚ) / 10) :=
  ⟨C8_zero_then_corrected_update smForce42 SensorId.FORCE (PyFloat.num 42) (PyFloat.num 0)
      rfl rfl (PyFloat.num ((421 : ℚ) / 10)) 7 8,
   by
    rw [show PyFloat.num ((421 : ℚ) / 10) - (PyFloat.num 0 + PyFloat.num 42)
        = PyFloat.num ((421 : ℚ) / 10 - (0 + 42)) from rfl]
    norm_num⟩

/-! ### DataProcessor (src/core/processing/data_processor.py, _process_loop body)

One pass of the 4 Hz loop over the cached `latest_values`: disconnected
sensors are masked to NaN in place, the list is copied, the ARC value is
computed and written at index `ARC.value`, and the frame `(timestamp,
values_copy)` is emitted.  List indexing out of range would raise, hence
the `Option` result. -/

def maskDisconnected (latest : List PyFloat) (connected : SensorId → Bool) : List PyFloat :=
  sensorIdMembers.foldl
    (fun acc sid => if connected sid then acc else acc.set sid.value PyFloat.nan) latest

lemma foldl_mask_length (connected : SensorId → Bool) (sids : List SensorId) :
    ∀ l : List PyFloat,
      (sids.foldl (fun acc sid => if connected sid then acc else acc.set sid.value PyFloat.nan)
        l).length = l.length := by
  induction sids with
  | nil => intro l; rfl
  | cons s ss ih =>
    intro l
    rw [List.foldl_cons, ih]
    split
    · rfl
    · simp

def processTick (latest : List PyFloat) (connected : SensorId → Bool) (now : ℚ) :
    Option (ℚ × List PyFloat) :=
  match (maskDisconnected latest connected).get? SensorId.DISP_1.value,
      (maskDisconnected latest connected).get? SensorId.DISP_2.value,
      (maskDisconnected latest connected).get? SensorId.DISP_3.value with
  | some d1, some d2, some d3 =>
    some (now, (maskDisconnected latest connected).set SensorId.ARC.value
      (d1 - (d2 + d3) / PyFloat.num 2))
  | _, _, _ => none

/-- C7: every emitted frame has `values[ARC] = values[DISP_1] −
(values[DISP_2] + values[DISP_3]) / 2` computed from the (masked) cached
values — exactly, in this ℚ model, hence within floating-point rounding
in the program — and the ARC slot is NaN whenever any of DISP_1/2/3 is
NaN. -/
theorem C7_arc_invariant (latest : List PyFloat) (connected : SensorId → Bool) (now : ℚ)
    (hlen : latest.length = 5) :
    ∃ d1 d2 d3,
      (maskDisconnected latest connected).get? 1 = some d1 ∧
      (maskDisconnected latest connected).get? 2 = some d2 ∧
      (maskDisconnected latest connected).get? 3 = some d3 ∧
      processTick latest connected now
        = some (now, (maskDisconnected latest connected).set 4
            (d1 - (d2 + d3) / PyFloat.num 2)) ∧
      ((maskDisconnected latest connected).set 4 (d1 - (d2 + d3) / PyFloat.num 2)).get? 4
        = some (d1 - (d2 + d3) / PyFloat.num 2) ∧
      ((d1.isNan ∨ d2.isNan ∨ d3.isNan) → (d1 - (d2 + d3) / PyFloat.num 2).isNan) := by
  have hm : (maskDisconnected latest connected).length = 5 := by
    unfold maskDisconnected
    rw [foldl_mask_length]
    exact hlen
  have h1 : 1 < (maskDisconnected latest connected).length := by omega
  have h2 : 2 < (maskDisconnected latest connected).length := by omega
  have h3 : 3 < (maskDisconnected latest connected).length := by omega
  have e1 : (maskDisconnected latest connected).get? SensorId.DISP_1.value
      = some ((maskDisconnected latest connected).get ⟨1, h1⟩) := List.get?_eq_get h1
  have e2 : (maskDisconnected latest connected).get? SensorId.DISP_2.value
      = some ((maskDisconnected latest connected).get ⟨2, h2⟩) := List.get?_eq_get h2
  have e3 : (maskDisconnected latest connected).get? SensorId.DISP_3.value
      = some ((maskDisconnected latest connected).get ⟨3, h3⟩) := List.get?_eq_get h3
  refine ⟨_, _, _, e1, e2, e3, ?_, ?_, ?_⟩
  · unfold processTick
    rw [e1, e2, e3]
    rfl
  · exact List.get?_set_eq_of_lt _ (by omega)
  · intro h
    rcases h with h | h | h
    · exact pyfloat_sub_nan _ _ (Or.inl h)
    · exact pyfloat_sub_nan _ _ (Or.inr (pyfloat_div_nan _ _ (Or.inl (pyfloat_add_nan _ _ (Or.inl h)))))
    · exact pyfloat_sub_nan _ _ (Or.inr (pyfloat_div_nan _ _ (Or.inl (pyfloat_add_nan _ _ (Or.inr h)))))

def dpLatest : List PyFloat :=
  [PyFloat.num 10, PyFloat.num 3, PyFloat.nan, PyFloat.num 5, PyFloat.num 0]

def dpConnected : SensorId → Bool := fun _ => true

/-- Witness for C7 on a concrete frame with a NaN DISP_2. -/
theorem C7_arc_invariant_witness :
    dpLatest.length = 5 ∧
    ∃ d1 d2 d3,
      (maskDisconnected dpLatest dpConnected).get? 1 = some d1 ∧
      (maskDisconnected dpLatest dpConnected).get? 2 = some d2 ∧
      (maskDisconnected dpLatest dpConnected).get? 3 = some d3 ∧
      processTick dpLatest dpConnected 0
        = some (0, (maskDisconnected dpLatest dpConnected).set 4
            (d1 - (d2 + d3) / PyFloat.num 2)) ∧
      ((maskDisconnected dpLatest dpConnected).set 4 (d1 - (d2 + d3) / PyFloat.num 2)).get? 4
        = some (d1 - (d2 + d3) / PyFloat.num 2) ∧
      ((d1.isNan ∨ d2.isNan ∨ d3.isNan) → (d1 - (d2 + d3) / PyFloat.num 2).isNan) :=
  ⟨rfl, C7_arc_invariant dpLatest dpConnected 0 rfl⟩

/-! ### SensorHealthMonitor (src/core/sensor_reconnection.py)

Floats here are exact rationals (no NaN can arise).  `time.time()` is an
explicit `now` argument. -/

inductive SensorState where
  | CONNECTED
  | DISCONNECTED
  | RECONNECTING
  | FAILED
deriving DecidableEq

structure SensorHealthMonitor where
  sensor_id : SensorId
  max_silence_time : ℚ
  initial_reconnect_delay : ℚ
  max_reconnect_delay : ℚ
  backoff_multiplier : ℚ
  last_data_time : ℚ
  state : SensorState
  reconnect_attempts : Nat
  current_backoff_delay : ℚ
deriving DecidableEq

/-- Dataclass defaults plus `__post_init__` (which pins
`current_backoff_delay` to `initial_reconnect_delay`). -/
def mkSensorHealthMonitor (sid : SensorId) (max_silence_time now : ℚ) : SensorHealthMonitor :=
  { sensor_id := sid, max_silence_time := max_silence_time,
    initial_reconnect_delay := 1, max_reconnect_delay := 30, backoff_multiplier := 3 / 2,
    last_data_time := now, state := SensorState.CONNECTED, reconnect_attempts := 0,
    current_backoff_delay := 1 }

def SensorHealthMonitor.record_data (m : SensorHealthMonitor) (now : ℚ) :
    SensorHealthMonitor :=
  let m1 := { m with last_data_time := now }
  if m1.state ≠ SensorState.CONNECTED then
    { m1 with
      state := SensorState.CONNECTED,
      reconnect_attempts := 0,
      current_backoff_delay := m1.initial_reconnect_delay }
  else m1

/-- Returns the current delay and the successor monitor whose delay is
`min(current * multiplier, max)`. -/
def SensorHealthMonitor.get_next_retry_delay (m : SensorHealthMonitor) :
    ℚ × SensorHealthMonitor :=
  (m.current_backoff_delay,
   { m with
     current_backoff_delay :=
       min (m.current_backoff_delay * m.backoff_multiplier) m.max_reconnect_delay })

/-- The delays returned by `n` successive `get_next_retry_delay` calls
(one per reconnection attempt, with no intervening data). -/
def retryDelays (m : SensorHealthMonitor) : Nat → List ℚ
  | 0 => []
  | n + 1 => (m.get_next_retry_delay).1 :: retryDelays (m.get_next_retry_delay).2 n

lemma min_mul_pow_step (a k D : ℚ) (hk : 1 ≤ k) (hD : 0 ≤ D) (j : Nat) :
    min (min a D * k ^ j) D = min (a * k ^ j) D := by
  have hkj : (1 : ℚ) ≤ k ^ j := by
    induction j with
    | zero => norm_num
    | succ n ih => rw [pow_succ]; nlinarith
  have hk0 : (0 : ℚ) ≤ k ^ j := by linarith
  rcases le_total a D with h | h
  · rw [min_eq_left h]
  · have hDk : D ≤ D * k ^ j := le_mul_of_one_le_right hD hkj
    have hak : D * k ^ j ≤ a * k ^ j := mul_le_mul_of_nonneg_right h hk0
    rw [min_eq_right h, min_eq_right hDk, min_eq_right (hDk.trans hak)]

lemma retryDelays_formula (n : Nat) : ∀ m : SensorHealthMonitor,
    1 ≤ m.backoff_multiplier → 0 ≤ m.max_reconnect_delay →
    retryDelays m n = (List.range n).map (fun (j : Nat) =>
      if j = 0 then m.current_backoff_delay
      else min (m.current_backoff_delay * m.backoff_multiplier ^ j) m.max_reconnect_delay) := by
  induction n with
  | zero => intro m _ _; rfl
  | succ n ih =>
    intro m hk hD
    have hstep := ih (m.get_next_retry_delay).2 hk hD
    show (m.get_next_retry_delay).1 :: retryDelays (m.get_next_retry_delay).2 n = _
    rw [hstep, List.range_succ_eq_map, List.map_cons, List.map_map]
    congr 1
    refine List.map_congr_left ?_
    intro j _
    show (if j = 0
            then min (m.current_backoff_delay * m.backoff_multiplier) m.max_reconnect_delay
            else min (min (m.current_backoff_delay * m.backoff_multiplier)
                m.max_reconnect_delay * m.backoff_multiplier ^ j) m.max_reconnect_delay)
          = if j + 1 = 0 then m.current_backoff_delay
            else min (m.current_backoff_delay * m.backoff_multiplier ^ (j + 1))
              m.max_reconnect_delay
    rw [if_neg (Nat.succ_ne_zero j)]
    rcases Nat.eq_zero_or_pos j with hj | hj
    · subst hj
      rw [if_pos rfl, pow_one]
    · rw [if_neg (by omega : j ≠ 0), min_mul_pow_step _ _ _ hk hD, mul_assoc, ← pow_succ']

/-- C9: with delay d₀, multiplier k ≥ 1 and cap D ≥ 0, the successive
retry delays are `d₀, min(d₀·k, D), min(d₀·k², D), …`; `record_data`
always lands in CONNECTED, and — given the invariant that a CONNECTED
monitor already carries the initial delay and zero attempts, which holds
of every reachable monitor — leaves the delay at d₀ and the attempt
counter at 0. -/
theorem C9_backoff_and_reset (m : SensorHealthMonitor)
    (hk : 1 ≤ m.backoff_multiplier) (hD : 0 ≤ m.max_reconnect_delay) :
    (∀ n, retryDelays m n = (List.range n).map (fun (j : Nat) =>
        if j = 0 then m.current_backoff_delay
        else min (m.current_backoff_delay * m.backoff_multiplier ^ j)
          m.max_reconnect_delay)) ∧
    (∀ now, (m.record_data now).state = SensorState.CONNECTED ∧
      ((m.state = SensorState.CONNECTED →
          m.current_backoff_delay = m.initial_reconnect_delay ∧ m.reconnect_attempts = 0) →
        (m.record_data now).current_backoff_delay = m.initial_reconnect_delay ∧
          (m.record_data now).reconnect_attempts = 0)) := by
  constructor
  · intro n
    exact retryDelays_formula n m hk hD
  · intro now
    constructor
    · simp only [SensorHealthMonitor.record_data]
      split
      · rfl
      · next h => exact not_not.mp h
    · intro hinv
      simp only [SensorHealthMonitor.record_data]
      split
      · exact ⟨rfl, rfl⟩
      · next h =>
        obtain ⟨ha, hb⟩ := hinv (not_not.mp h)
        exact ⟨ha, hb⟩

def monitor10 : SensorHealthMonitor :=
  { sensor_id := SensorId.FORCE, max_silence_time := 5, initial_reconnect_delay := 1,
    max_reconnect_delay := 10, backoff_multiplier := 3 / 2, last_data_time := 0,
    state := SensorState.CONNECTED, reconnect_attempts := 0, current_backoff_delay := 1 }

/-- Witness for C9: with d₀ = 1, k = 1.5, D = 10, three attempts yield
delays 1.0, 1.5, 2.25, and `record_data` keeps delay 1 and state
CONNECTED. -/
theorem C9_backoff_and_reset_witness :
    ((∀ n, retryDelays monitor10 n = (List.range n).map (fun (j : Nat) =>
        if j = 0 then monitor10.current_backoff_delay
        else min (monitor10.current_backoff_delay * monitor10.backoff_multiplier ^ j)
          monitor10.max_reconnect_delay)) ∧
      (∀ now, (monitor10.record_data now).state = SensorState.CONNECTED ∧
        ((monitor10.state = SensorState.CONNECTED →
            monitor10.current_backoff_delay = monitor10.initial_reconnect_delay ∧
              monitor10.reconnect_attempts = 0) →
          (monitor10.record_data now).current_backoff_delay
              = monitor10.initial_reconnect_delay ∧
            (monitor10.record_data now).reconnect_attempts = 0))) ∧
    retryDelays monitor10 3 = [1, 3 / 2, 9 / 4] ∧
    (monitor10.record_data 99).current_backoff_delay = 1 :=
  ⟨C9_backoff_and_reset monitor10 (by norm_num [monitor10]) (by norm_num [monitor10]),
   by norm_num [retryDelays, SensorHealthMonitor.get_next_retry_delay, monitor10, min_def],
   rfl⟩
